import Mathlib

/-!
Verification development for the batch chart-extraction tool.

Part 1 embeds the table classifier and the per-PDF processing loop of
`transfer.py`; part 2 embeds the workbook writer's sheet-name allocator;
part 3 embeds the dataframe query operations of `viz_app.py`; part 4 gives
a store-passing embedding of the query operations that makes the
copy-then-mutate discipline of the source observable.

Python strings are modelled as lists of characters (`Str`), machine floats
that the source only ever compares or sets to exact literals are modelled
as rationals, and fallible code returns `Except String`.
-/

/-- Python strings, modelled as their character sequences. -/
abbrev Str := List Char

/-- A cell of a pdfplumber table: either a string or `None`. -/
abbrev PCell := Option Str

/-- The JSON payload `classify_table_with_model` sends to the remote model:
page index, lower-cased page text truncated to 1500 characters, and the
table preview. -/
structure Payload where
  page_index : Nat
  page_text : Str
  table_preview : List (List PCell)
deriving DecidableEq

/-- A parsed classification decision: the dict
with keys is_rate_table / sheet_title. -/
structure ClsResult where
  is_rate_table : Bool
  sheet_title : Str
deriving DecidableEq

/-- What the local part of `classify_table_with_model` decides: either an
early local rejection (no remote call), or a remote call with a payload. -/
inductive ClassifyAction where
  | rejected
  | remoteCall (p : Payload)
deriving DecidableEq

/-- `num_cols = max([len(r) for r in table_preview]) if table_preview else 0`. -/
def maxRowLen (pv : List (List PCell)) : Nat :=
  ((pv.map List.length).max?).getD 0

/-- One cell's contribution to `digit_cells`:
`isinstance(c, str) and any(ch.isdigit() for ch in c)`. -/
def cellHasDigit (c : PCell) : Bool :=
  match c with
  | some s => s.any Char.isDigit
  | none => false

/-- `is_numeric_row` from `classify_table_with_model`.  The float comparison
`digit_cells / total >= 0.5` is exact for these magnitudes and is rendered
as `total ≤ 2 * digit_cells`; a zero-length row makes the source raise
`ZeroDivisionError`, rendered as the error case. -/
def is_numeric_row (row : List PCell) : Except String Bool :=
  let digit_cells := (row.filter cellHasDigit).length
  if row.length = 0 then Except.error ("ZeroDivisionError")
  else Except.ok (decide (row.length ≤ 2 * digit_cells))

/-- `numeric_row_count = sum(is_numeric_row(r) for r in table_preview)`,
propagating the first exception, like the Python generator sum. -/
def numericCountE (pv : List (List PCell)) : Except String Nat :=
  pv.foldlM (fun n r => do
    let b ← is_numeric_row r
    pure (n + (if b then 1 else 0))) 0

/-- The fixed keyword vocabulary scanned in the page text. -/
def KEYWORDS : List Str :=
  [("cost").toList, ("rate").toList, ("premium").toList, ("weekly").toList,
   ("monthly").toList, ("death").toList, ("tpd").toList,
   ("income protection").toList, ("waiting period").toList,
   ("benefit period").toList, ("cover").toList]

/-- Whether `pat` begins `s` (character-wise). -/
def leadsWith : Str → Str → Bool
  | [], _ => true
  | _ :: _, [] => false
  | a :: as, b :: bs => a == b && leadsWith as bs

/-- Python's substring test `pat in s`. -/
def hasSub (pat : Str) : Str → Bool
  | [] => pat.isEmpty
  | c :: rest => leadsWith pat (c :: rest) || hasSub pat rest

/-- `text_lower = (page_text or "").lower()`. -/
def pageTextLower (t : Str) : Str := t.map Char.toLower

/-- `hit_keyword = any(k in text_lower for k in KEYWORDS)`. -/
def hitKeyword (t : Str) : Bool :=
  KEYWORDS.any (fun k => hasSub k (pageTextLower t))

/-- The local decision logic of `classify_table_with_model` (lines 64-104):
structural gate, numeric-density gate, keyword scan, and payload assembly.
The keyword signal is bound but — exactly as in the source — never used. -/
def classifyStep (page_index : Nat) (page_text : Str) (pv : List (List PCell)) :
    Except String ClassifyAction :=
  let num_rows := pv.length
  let num_cols := maxRowLen pv
  if num_rows < 4 || num_cols < 4 then Except.ok ClassifyAction.rejected
  else do
    let n ← numericCountE pv
    if n < 2 then pure ClassifyAction.rejected
    else
      let text_lower := pageTextLower page_text
      let _hit_keyword := hitKeyword page_text
      pure (ClassifyAction.remoteCall ⟨page_index, text_lower.take 1500, pv⟩)

/-- `classify_table_with_model`, with the remote model call (lines 106-118,
including JSON parsing of the response) abstracted as an oracle that may
fail. -/
def classify_table_with_model (remote : Payload → Except String ClsResult)
    (page_index : Nat) (page_text : Str) (pv : List (List PCell)) :
    Except String ClsResult :=
  match classifyStep page_index page_text pv with
  | Except.error e => Except.error e
  | Except.ok ClassifyAction.rejected => Except.ok ⟨false, []⟩
  | Except.ok (ClassifyAction.remoteCall p) => remote p

/-- The trace of remote calls issued while classifying one table:
empty on local rejection or exception, a single payload otherwise. -/
def classifyCalls (page_index : Nat) (page_text : Str)
    (pv : List (List PCell)) : List Payload :=
  match classifyStep page_index page_text pv with
  | Except.ok (ClassifyAction.remoteCall p) => [p]
  | _ => []

/-- `preview = [row[:8] for row in tbl[:6]]`. -/
def tablePreview (tbl : List (List PCell)) : List (List PCell) :=
  (tbl.take 6).map (fun row => row.take 8)

/-- Python's `str.strip()`: whitespace removed from both ends. -/
def pyStrip (s : Str) : Str :=
  ((s.dropWhile Char.isWhitespace).reverse.dropWhile Char.isWhitespace).reverse

/-- Decimal digit character for a remainder below 10. -/
def digitCh (r : Nat) : Char := Char.ofNat (48 + r)

/-- Decimal rendering of a natural number, as Python's `str(k)`. -/
def natDigits (n : Nat) : Str :=
  if _h : n < 10 then [digitCh n]
  else natDigits (n / 10) ++ [digitCh (n % 10)]
decreasing_by exact Nat.div_lt_self (by omega) (by norm_num)

/-- The fallback sheet title `f"Rates page {page_idx+1} table {t_idx+1}"`
(built with the already 1-based indices). -/
def fallbackTitle (page1 t1 : Nat) : Str :=
  ("Rates page ").toList ++ natDigits page1 ++ (" table ").toList ++ natDigits t1

/-- Title finalisation in `process_single_pdf`:
`raw_title = cls.get("sheet_title") or fallback` then
`sheet_title = raw_title.strip() or fallback`. -/
def finalTitle (cls_title : Str) (page1 t1 : Nat) : Str :=
  let raw_title := if cls_title = [] then fallbackTitle page1 t1 else cls_title
  if pyStrip raw_title = [] then fallbackTitle page1 t1 else pyStrip raw_title

/-- An accepted table queued for the workbook writer. -/
structure AcceptedTable where
  sheet_title : Str
  data : List (List PCell)
deriving DecidableEq

/-- A logged classification-failure warning: 1-based page index, 1-based
table index, and the exception text. -/
structure Warn where
  page1 : Nat
  table1 : Nat
  msg : String
deriving DecidableEq

/-- The inner loop of `process_single_pdf` over the tables of one page
(lines 133-155): skips falsy tables, classifies each remaining table once,
logs-and-skips on exception, skips rejected tables, and queues accepted
tables with their finalised titles.  Also returns the trace of remote
calls issued. -/
def runTables (remote : Payload → Except String ClsResult) (page_idx : Nat)
    (page_text : Str) (t_idx : Nat) :
    List (List (List PCell)) → List AcceptedTable × List Warn × List Payload
  | [] => ([], [], [])
  | tbl :: rest =>
    if tbl.isEmpty then runTables remote page_idx page_text (t_idx + 1) rest
    else
      let pv := tablePreview tbl
      let calls := classifyCalls page_idx page_text pv
      let next := runTables remote page_idx page_text (t_idx + 1) rest
      match classify_table_with_model remote page_idx page_text pv with
      | Except.error e =>
        (next.1, ⟨page_idx + 1, t_idx + 1, e⟩ :: next.2.1, calls ++ next.2.2)
      | Except.ok cls =>
        if cls.is_rate_table then
          (⟨finalTitle cls.sheet_title (page_idx + 1) (t_idx + 1), tbl⟩ :: next.1,
           next.2.1, calls ++ next.2.2)
        else (next.1, next.2.1, calls ++ next.2.2)

/-- Python slicing `s[:n]` for a possibly negative bound `n`. -/
def pySliceTo (s : Str) (n : Int) : Str :=
  if n < 0 then s.take (((s.length : Int) + n).toNat) else s.take n.toNat

/-- The candidate sheet name tried on a collision:
`base_name[: (31 - len(suffix))] + suffix` with `suffix = f"_{k}"`. -/
def candName (base : Str) (k : Nat) : Str :=
  pySliceTo base (31 - (('_' :: natDigits k).length : Int)) ++ ('_' :: natDigits k)

/-- The collision loop of the workbook writer
(`while name in used_names: ...`), with enough fuel to exhaust the used
set plus two candidates. -/
def allocGo (used : List Str) (base : Str) : Nat → Nat → Str → Str
  | 0, _, name => name
  | fuel + 1, k, name =>
    if name ∈ used then allocGo used base fuel (k + 1) (candName base k)
    else name

/-- Sheet-name resolution for one accepted table given the set of names
already used in the file. -/
def allocateName (used : List Str) (base : Str) : Str :=
  allocGo used base (used.length + 2) 1 base

/-- The writer loop of `process_single_pdf` (lines 165-179): truncates each
title to 31 characters, resolves collisions, and records the name as used. -/
def assignGo (used : List Str) : List Str → List Str
  | [] => []
  | t :: ts =>
    let name := allocateName used (t.take 31)
    name :: assignGo (name :: used) ts

/-- Sheet names assigned to an ordered list of accepted-table titles. -/
def assignNames (titles : List Str) : List Str :=
  assignGo [] titles

/-- A non-missing dataframe cell value: a number or a string.  Missing
values (NaN / None) are the `none` of `Cell`. -/
inductive Val where
  | num (q : ℚ)
  | str (s : String)
deriving DecidableEq

/-- A dataframe cell. -/
abbrev Cell := Option Val

/-- A pandas dataframe: named columns and rows of cells (row `i`, column
`j` at list position `j` of row `i`). -/
structure DataFrame where
  cols : List String
  rows : List (List Cell)
deriving DecidableEq, Inhabited

/-- The cell of row `r` in the column named `c`. -/
def DataFrame.cellAt (df : DataFrame) (r : List Cell) (c : String) : Cell :=
  match df.cols.findIdx? (fun x => x == c) with
  | some i => r.getD i none
  | none => none

/-- Whether a column named `c` exists. -/
def DataFrame.hasCol (df : DataFrame) (c : String) : Bool :=
  df.cols.contains c

/-- Elementwise `df[c] == v`: `False` on missing values, as in pandas. -/
def cellEqVal (cell : Cell) (v : Val) : Bool :=
  match cell with
  | some w => w == v
  | none => false

/-- `df[df[c] == v]`. -/
def DataFrame.filterEq (df : DataFrame) (c : String) (v : Val) : DataFrame :=
  ⟨df.cols, df.rows.filter (fun r => cellEqVal (df.cellAt r c) v)⟩

/-- The values of column `c`, row by row. -/
def DataFrame.colVals (df : DataFrame) (c : String) : List Cell :=
  df.rows.map (fun r => df.cellAt r c)

/-- `pd.to_numeric(x, errors="coerce")` on one cell.  String parsing is the
external pandas parser, abstracted as `parseNum`. -/
def coerceCell (parseNum : String → Option ℚ) : Cell → Cell
  | some (Val.num q) => some (Val.num q)
  | some (Val.str s) => (parseNum s).map Val.num
  | none => none

/-- `df[c] = pd.to_numeric(df[c], errors="coerce")`. -/
def DataFrame.coerceCol (df : DataFrame) (parseNum : String → Option ℚ)
    (c : String) : DataFrame :=
  match df.cols.findIdx? (fun x => x == c) with
  | some i => ⟨df.cols, df.rows.map (fun r => r.set i (coerceCell parseNum (r.getD i none)))⟩
  | none => df

/-- The fixed demographic/benefit columns of `get_company_columns`. -/
def vizBaseCols : List String :=
  [("Age"), ("Gender"), ("Occupation"), ("Benefit"), ("BenefitType"),
   ("BenefitPeriod"), ("WaitingPeriod")]

/-- `get_company_columns`: every column not in the fixed set, in column
order. -/
def get_company_columns (df : DataFrame) : List String :=
  df.cols.filter (fun c => !(vizBaseCols.contains c))

/-- Removal of every occurrence of the pattern `p0 :: ps`, left to right,
non-overlapping: Python's `str.replace(pat, "")`.  A positive `skip`
means that many characters of an already-matched occurrence remain to be
dropped; matching is only attempted when `skip = 0`. -/
def removeSubAll (p0 : Char) (ps : Str) : Nat → Str → Str
  | _, [] => []
  | 0, c :: rest =>
    if leadsWith (p0 :: ps) (c :: rest) then removeSubAll p0 ps ps.length rest
    else c :: removeSubAll p0 ps 0 rest
  | skip + 1, _ :: rest => removeSubAll p0 ps skip rest

/-- `name.replace(" rates", "")`: every occurrence removed, not only a
suffix. -/
def stripRates (s : String) : String :=
  (removeSubAll ' ' (("rates").toList) 0 s.toList).asString

/-- The displayed value of a point-lookup row: a value or the
"no available" sentinel. -/
inductive Display where
  | val (v : Val)
  | noAvail
deriving DecidableEq

/-- One output row of `build_lookup`. -/
structure LookRow where
  company : String
  display : Display
deriving DecidableEq

/-- The per-company row assembly of `build_lookup` (lines 95-106): one
row per company column of `df`, carrying the first non-missing value of
that column among the rows of the filtered `query`, or the "no available"
sentinel. -/
def lookupRows (df query : DataFrame) : List LookRow :=
  (get_company_columns df).map (fun comp =>
    let series := (query.colVals comp).filterMap id
    let rate : Option Val := if query.rows.isEmpty then none else series.head?
    ⟨stripRates comp,
     match rate with
     | some v => Display.val v
     | none => Display.noAvail⟩)

/-- `build_lookup`: equality filters on Age/Gender/Occupation (and
BenefitType when that column exists), then one output row per company
column carrying the first non-missing value among the matches.  A missing
filter column is the pandas `KeyError`. -/
def build_lookup (df : DataFrame) (age : ℚ) (gender occupation benefit : String) :
    Except String (List LookRow) :=
  let benefit_col := df.hasCol ("BenefitType")
  if df.hasCol ("Age") then
    if df.hasCol ("Gender") then
      if df.hasCol ("Occupation") then
        let query := df
        let query := query.filterEq ("Age") (Val.num age)
        let query := query.filterEq ("Gender") (Val.str gender)
        let query := query.filterEq ("Occupation") (Val.str occupation)
        let query := if benefit_col then query.filterEq ("BenefitType") (Val.str benefit) else query
        Except.ok (lookupRows df query)
      else Except.error ("KeyError: Occupation")
    else Except.error ("KeyError: Gender")
  else Except.error ("KeyError: Age")

/-- Truthiness of the optional `benefit_period` / `waiting_period`
arguments (`None` and the empty string are falsy). -/
def truthy : Option String → Bool
  | none => false
  | some s => !(s == "")

/-- The conditional filter assignments shared by `build_trend` and
`build_relative_trend`: BenefitType when `benefit_col` (computed from the
input frame), then the two optional income-protection qualifiers when
truthy and present. -/
def condChain (f : DataFrame) (benefit_col : Bool) (benefit : String)
    (benefit_period waiting_period : Option String) : DataFrame :=
  let f2 := if benefit_col then f.filterEq ("BenefitType") (Val.str benefit) else f
  let f3 := if truthy benefit_period && f2.hasCol ("BenefitPeriod") then
      f2.filterEq ("BenefitPeriod") (Val.str (benefit_period.getD "")) else f2
  if truthy waiting_period && f3.hasCol ("WaitingPeriod") then
    f3.filterEq ("WaitingPeriod") (Val.str (waiting_period.getD "")) else f3

/-- The shared filter chain of `build_trend` and `build_relative_trend`:
Gender, Occupation, then the conditional assignments of `condChain`. -/
def demoFiltered (df : DataFrame) (gender occupation benefit : String)
    (benefit_period waiting_period : Option String) : DataFrame :=
  condChain ((df.filterEq ("Gender") (Val.str gender)).filterEq ("Occupation")
    (Val.str occupation)) (df.hasCol ("BenefitType")) benefit
    benefit_period waiting_period

/-- One output row of `build_trend`. -/
structure TrendRow where
  age : Cell
  company : String
  rate : Val
deriving DecidableEq

/-- The coercion loop of `build_trend` (lines 127-131): coerce each
selected company column to numeric in place and collect (in reverse) the
companies whose coerced column has no data. -/
def coerceFold (parseNum : String → Option ℚ) (cs : List String)
    (p : DataFrame × List String) : DataFrame × List String :=
  cs.foldl (fun (p : DataFrame × List String) c =>
    let f := p.1.coerceCol parseNum c
    (f, if ((f.colVals c).filterMap id).isEmpty then c :: p.2 else p.2)) p

/-- The coercion loop of `build_relative_trend` (lines 156-157): in-place
numeric coercion only. -/
def coerceAll (parseNum : String → Option ℚ) (cs : List String)
    (f : DataFrame) : DataFrame :=
  cs.foldl (fun g c => g.coerceCol parseNum c) f

/-- The melt-and-drop step of `build_trend` (lines 132-134): one long-form
row per non-missing cell of each selected company column, company names
stripped of " rates". -/
def meltRows (filtered : DataFrame) (melt_cols : List String) : List TrendRow :=
  (melt_cols.map (fun c =>
    filtered.rows.filterMap (fun r =>
      match filtered.cellAt r c with
      | some v => some (⟨filtered.cellAt r ("Age"), stripRates c, v⟩ : TrendRow)
      | none => none))).flatten

/-- `build_trend`: filter, coerce each selected company column to numeric
(collecting companies left without data), then melt to long form and drop
missing rates. -/
def build_trend (parseNum : String → Option ℚ) (df : DataFrame)
    (companies : List String) (gender occupation benefit : String)
    (benefit_period waiting_period : Option String) :
    Except String (List TrendRow × List String) :=
  if df.hasCol ("Gender") then
    if df.hasCol ("Occupation") then
      let filtered := demoFiltered df gender occupation benefit benefit_period waiting_period
      let melt_cols := (get_company_columns df).filter
        (fun c => companies.isEmpty || companies.contains c)
      if melt_cols.isEmpty then Except.ok ([], [])
      else
        let fm := coerceFold parseNum melt_cols (filtered, [])
        if df.hasCol ("Age") then
          Except.ok (meltRows fm.1 melt_cols, fm.2.reverse)
        else Except.error ("KeyError: Age")
    else Except.error ("KeyError: Occupation")
  else Except.error ("KeyError: Gender")

/-- One output row of `build_relative_trend`. -/
structure RelRow where
  age : Val
  company : String
  ratio : ℚ
deriving DecidableEq

/-- The (Age, value) pairs of column `c` surviving
`dropna(subset=["Age", c])`.  Only applied after `c` has been numerically
coerced, so a present cell is numeric. -/
def rawPairs (df : DataFrame) (c : String) : List (Val × ℚ) :=
  df.rows.filterMap (fun r =>
    match df.cellAt r ("Age"), df.cellAt r c with
    | some a, some (Val.num q) => some (a, q)
    | _, _ => none)

/-- `groupby("Age").mean()`: one (key, mean) pair per distinct Age value.
pandas sorts group keys; key order does not affect any property proved
here, so first-occurrence order is used. -/
def groupMeans (pairs : List (Val × ℚ)) : List (Val × ℚ) :=
  ((pairs.map Prod.fst).dedup).map (fun a =>
    let vs := (pairs.filter (fun p => p.1 == a)).map Prod.snd
    (a, vs.sum / (vs.length : ℚ)))

/-- The per-company Age-mean series of `build_relative_trend`. -/
def seriesOf (df : DataFrame) (c : String) : List (Val × ℚ) :=
  groupMeans (rawPairs df c)

/-- The filtered-and-coerced frame used by `build_relative_trend`:
`demoFiltered` followed by numeric coercion of every requested company
column that exists. -/
def relFiltered (parseNum : String → Option ℚ) (df : DataFrame)
    (base_company : String) (compare_companies : List String)
    (gender occupation benefit : String)
    (benefit_period waiting_period : Option String) : DataFrame :=
  let filtered := demoFiltered df gender occupation benefit benefit_period waiting_period
  let numeric_cols := (base_company :: compare_companies).filter
    (fun c => filtered.hasCol c)
  coerceAll parseNum numeric_cols filtered

/-- `build_relative_trend`: early empty return on a falsy baseline or an
empty compare list; otherwise filter, coerce, build the baseline mean
series (flat ratio 100), inner-join each compare company's series on Age
(empty joins collect into `missing`), and strip " rates" from every
emitted company name.  The third component is the baseline-missing flag.

Everything after filtering and coercion
(lines 159-195): baseline mean series and flat-100 block, per-company
inner join on Age with ratio = comp mean / base mean × 100, the `missing`
list of companies with empty joins, final concatenation and " rates"
stripping, and the baseline-missing flag lives in `relTail`.

One compare company's step of the loop: inner join of its mean
series with the baseline series on Age (ratio = comp mean / base mean ×
100); an empty join files the company under `missing`.  A company column
absent from the frame is the pandas `KeyError`. -/
def relStep (filtered : DataFrame) (base_series : List (Val × ℚ))
    (acc : List (List RelRow) × List String) (comp : String) :
    Except String (List (List RelRow) × List String) :=
  if filtered.hasCol comp then
    let comp_series := seriesOf filtered comp
    let joined := base_series.filterMap (fun p =>
      match comp_series.lookup p.1 with
      | some cq => some (⟨p.1, comp, cq / p.2 * 100⟩ : RelRow)
      | none => none)
    if joined.isEmpty then Except.ok (acc.1, acc.2 ++ [comp])
    else Except.ok (acc.1 ++ [joined], acc.2)
  else Except.error ("KeyError: compare company")

def relTail (filtered : DataFrame) (base_company : String)
    (compare_companies : List String) :
    Except String (List RelRow × List String × Bool) :=
  if filtered.hasCol ("Age") && filtered.hasCol base_company then
    let base_series := seriesOf filtered base_company
    let baseline_missing := base_series.isEmpty
    let baseRows : List RelRow :=
      if base_series.isEmpty then []
      else base_series.map (fun p => ⟨p.1, base_company, 100⟩)
    match compare_companies.foldlM (relStep filtered base_series) ([], []) with
    | Except.error e => Except.error e
    | Except.ok acc =>
      let rows := (if baseRows.isEmpty then [] else [baseRows]) ++ acc.1
      if rows.isEmpty then Except.ok ([], acc.2, baseline_missing)
      else
        let result := rows.flatten
        Except.ok (result.map (fun r => ⟨r.age, stripRates r.company, r.ratio⟩),
                   acc.2, baseline_missing)
  else Except.error ("KeyError: Age or baseline company")

/-- `build_relative_trend`: early empty return on a falsy baseline or an
empty compare list, filters and coercion via `relFiltered`, then
`relTail`. -/
def build_relative_trend (parseNum : String → Option ℚ) (df : DataFrame)
    (base_company : String) (compare_companies : List String)
    (gender occupation benefit : String)
    (benefit_period waiting_period : Option String) :
    Except String (List RelRow × List String × Bool) :=
  if base_company == "" || compare_companies.isEmpty then Except.ok ([], [], false)
  else if df.hasCol ("Gender") then
    if df.hasCol ("Occupation") then
      relTail (relFiltered parseNum df base_company compare_companies
        gender occupation benefit benefit_period waiting_period)
        base_company compare_companies
    else Except.error ("KeyError: Occupation")
  else Except.error ("KeyError: Gender")

/-!
Part 4: a store-passing embedding of the three query operations.  Python
dataframes are heap objects; `df.copy()` and every filtering expression
allocate fresh objects, while `filtered[c] = ...` mutates the object in
place.  The store records each operation's allocations and in-place
writes, so that "the caller's dataframe is never mutated" is an actual
theorem rather than a vacuity of value semantics.
-/

/-- The heap of dataframe objects; a reference is an index. -/
abbrev Store := List DataFrame

/-- Dereference (an invalid reference yields the empty frame). -/
def readS (s : Store) (r : Nat) : DataFrame :=
  s.getD r default

/-- Allocation of a fresh dataframe object. -/
def allocS (s : Store) (d : DataFrame) : Store × Nat :=
  (s ++ [d], s.length)

/-- In-place mutation of an existing object. -/
def writeS (s : Store) (r : Nat) (d : DataFrame) : Store :=
  s.set r d

/-- Store-passing `build_lookup`: `query = df.copy()` allocates, each
filtering assignment rebinds `query` to a freshly allocated frame, and no
statement writes to an existing object. -/
def build_lookup_st (s0 : Store) (dfR : Nat) (age : ℚ)
    (gender occupation benefit : String) :
    Store × Except String (List LookRow) :=
  let df := readS s0 dfR
  let benefit_col := df.hasCol ("BenefitType")
  let a1 := allocS s0 df
  if df.hasCol ("Age") then
    let a2 := allocS a1.1 ((readS a1.1 a1.2).filterEq ("Age") (Val.num age))
    if df.hasCol ("Gender") then
      let a3 := allocS a2.1 ((readS a2.1 a2.2).filterEq ("Gender") (Val.str gender))
      if df.hasCol ("Occupation") then
        let a4 := allocS a3.1 ((readS a3.1 a3.2).filterEq ("Occupation") (Val.str occupation))
        let a5 := if benefit_col then
            allocS a4.1 ((readS a4.1 a4.2).filterEq ("BenefitType") (Val.str benefit))
          else a4
        (a5.1, Except.ok (lookupRows df (readS a5.1 a5.2)))
      else (a3.1, Except.error ("KeyError: Occupation"))
    else (a2.1, Except.error ("KeyError: Gender"))
  else (a1.1, Except.error ("KeyError: Age"))

/-- The conditional filter assignments shared by `build_trend` and
`build_relative_trend` on the store (BenefitType when `df` has that
column, then the two truthy-and-present optional qualifiers), starting
from the object bound to `filtered` at `fR`.  Each executed assignment
rebinds `filtered` to a freshly allocated frame. -/
def condChain_st (s : Store) (fR : Nat) (benefit_col : Bool) (benefit : String)
    (benefit_period waiting_period : Option String) : Store × Nat :=
  let a4 := if benefit_col then
      allocS s ((readS s fR).filterEq ("BenefitType") (Val.str benefit))
    else (s, fR)
  let a5 := if truthy benefit_period && (readS a4.1 a4.2).hasCol ("BenefitPeriod") then
      allocS a4.1 ((readS a4.1 a4.2).filterEq ("BenefitPeriod") (Val.str (benefit_period.getD "")))
    else a4
  if truthy waiting_period && (readS a5.1 a5.2).hasCol ("WaitingPeriod") then
    allocS a5.1 ((readS a5.1 a5.2).filterEq ("WaitingPeriod") (Val.str (waiting_period.getD "")))
  else a5

/-- The numeric-coercion loop on the store: each iteration performs the
in-place write `filtered[c] = pd.to_numeric(filtered[c])` on the object
at `fR` (for `build_trend`, also collecting the companies left without
data). -/
def coerceLoop_st (parseNum : String → Option ℚ) (fR : Nat)
    (cs : List String) (init : Store × List String) : Store × List String :=
  cs.foldl (fun (p : Store × List String) c =>
    let s := writeS p.1 fR ((readS p.1 fR).coerceCol parseNum c)
    (s, if (((readS s fR).colVals c).filterMap id).isEmpty then c :: p.2 else p.2)) init

/-- The coercion-only loop of `build_relative_trend` on the store: each
iteration performs the in-place write
`filtered[c] = pd.to_numeric(filtered[c])` on the object at `fR`. -/
def coerceOnly_st (parseNum : String → Option ℚ) (fR : Nat)
    (cs : List String) (s : Store) : Store :=
  cs.foldl (fun s c => writeS s fR ((readS s fR).coerceCol parseNum c)) s

/-- Store-passing `build_trend`: `filtered = df.copy()` allocates, each
executed filter assignment allocates, the coercion loop writes in place
at the `filtered` reference, and the melt is pure. -/
def build_trend_st (parseNum : String → Option ℚ) (s0 : Store) (dfR : Nat)
    (companies : List String) (gender occupation benefit : String)
    (benefit_period waiting_period : Option String) :
    Store × Except String (List TrendRow × List String) :=
  let df := readS s0 dfR
  let a1 := allocS s0 df
  if df.hasCol ("Gender") then
    let a2 := allocS a1.1 ((readS a1.1 a1.2).filterEq ("Gender") (Val.str gender))
    if df.hasCol ("Occupation") then
      let a3 := allocS a2.1 ((readS a2.1 a2.2).filterEq ("Occupation") (Val.str occupation))
      let a := condChain_st a3.1 a3.2 (df.hasCol ("BenefitType")) benefit
        benefit_period waiting_period
      let melt_cols := (get_company_columns df).filter
        (fun c => companies.isEmpty || companies.contains c)
      if melt_cols.isEmpty then (a.1, Except.ok ([], []))
      else
        let fm := coerceLoop_st parseNum a.2 melt_cols (a.1, [])
        if df.hasCol ("Age") then
          (fm.1, Except.ok (meltRows (readS fm.1 a.2) melt_cols, fm.2.reverse))
        else (fm.1, Except.error ("KeyError: Age"))
    else (a2.1, Except.error ("KeyError: Occupation"))
  else (a1.1, Except.error ("KeyError: Gender"))

/-- Store-passing `build_relative_trend`: the early return allocates
nothing; otherwise the copy and each executed filter assignment allocate,
the coercion loop writes in place at the `filtered` reference, and the
tail is pure. -/
def build_relative_trend_st (parseNum : String → Option ℚ) (s0 : Store) (dfR : Nat)
    (base_company : String) (compare_companies : List String)
    (gender occupation benefit : String)
    (benefit_period waiting_period : Option String) :
    Store × Except String (List RelRow × List String × Bool) :=
  let df := readS s0 dfR
  if base_company == "" || compare_companies.isEmpty then (s0, Except.ok ([], [], false))
  else
    let a1 := allocS s0 df
    if df.hasCol ("Gender") then
      let a2 := allocS a1.1 ((readS a1.1 a1.2).filterEq ("Gender") (Val.str gender))
      if df.hasCol ("Occupation") then
        let a3 := allocS a2.1 ((readS a2.1 a2.2).filterEq ("Occupation") (Val.str occupation))
        let a := condChain_st a3.1 a3.2 (df.hasCol ("BenefitType")) benefit
          benefit_period waiting_period
        let numeric_cols := (base_company :: compare_companies).filter
          (fun c => (readS a.1 a.2).hasCol c)
        let sF := coerceOnly_st parseNum a.2 numeric_cols a.1
        (sF, relTail (readS sF a.2) base_company compare_companies)
      else (a2.1, Except.error ("KeyError: Occupation"))
    else (a1.1, Except.error ("KeyError: Gender"))

/-!
Part 5: concrete inputs used to instantiate the theorems.
-/

/-- A table row of four no-digit string cells. -/
def rowA : List PCell :=
  [some (("a").toList), some (("a").toList), some (("a").toList), some (("a").toList)]

/-- A table row of four digit-string cells. -/
def rowD : List PCell :=
  [some (("1").toList), some (("2").toList), some (("3").toList), some (("4").toList)]

/-- A 3-row preview (fails the structural gate). -/
def pvSmall : List (List PCell) := [rowA, rowA, rowA]

/-- A gate-passing preview with a zero-length row among no-digit rows. -/
def pvC2ce : List (List PCell) := [[], rowA, rowA, rowA]

/-- A gate-passing all-letters preview (zero numeric rows). -/
def pvC2w : List (List PCell) := [rowA, rowA, rowA, rowA]

/-- A gate-passing all-digits preview (four numeric rows). -/
def pvDigits : List (List PCell) := [rowD, rowD, rowD, rowD]

/-- A gate-passing preview with a zero-length row among digit rows. -/
def pvC10ce : List (List PCell) := [[], rowD, rowD, rowD]

/-- A remote oracle that always fails. -/
def remoteBoom : Payload → Except String ClsResult :=
  fun _ => Except.error ("boom")

/-- A remote oracle that always accepts. -/
def remoteYes : Payload → Except String ClsResult :=
  fun _ => Except.ok ⟨true, ("T").toList⟩

/-- Page text with a keyword only after the 1500-character truncation
point. -/
def textT1 : Str := List.replicate 1500 'a' ++ ("cost").toList

/-- Page text with no keyword at all. -/
def textT2 : Str := List.replicate 1500 'a'

/-- A 12-character base title shared by two tables. -/
def titleLong : Str := ("Death rates ").toList ++ List.replicate 25 'x'

/-- Two accepted tables whose titles share a 31-character truncation. -/
def titlesW : List Str := [titleLong, titleLong]

/-- The string-parsing stub for `pd.to_numeric` used at concrete inputs:
every string coerces to missing. -/
def pn0 : String → Option ℚ := fun _ => none

/-- A one-row normalized table with two company columns. -/
def dfC6 : DataFrame :=
  ⟨[("Age"), ("Gender"), ("Occupation"), ("BenefitType"), ("A rates"), ("B rates")],
   [[some (Val.num 30), some (Val.str ("M")), some (Val.str ("W")),
     some (Val.str ("D")), some (Val.num 2), some (Val.num 4)]]⟩

/-- The same columns with no rows at all. -/
def dfNoRows : DataFrame :=
  ⟨[("Age"), ("Gender"), ("Occupation"), ("BenefitType"), ("A rates"), ("B rates")], []⟩

/-- A table whose single company column contains " rates" twice. -/
def dfC8ce : DataFrame :=
  ⟨[("Age"), ("Gender"), ("Occupation"), ("BenefitType"), ("A rates B rates")],
   [[some (Val.num 30), some (Val.str ("M")), some (Val.str ("W")),
     some (Val.str ("D")), some (Val.num 2)]]⟩

/-- The claim's reading of company display names, following the spec's
words: strip a literal " rates" suffix (only a suffix). -/
def stripSuffixRatesSpec (s : String) : String :=
  let pat := ' ' :: ("rates").toList
  if leadsWith pat.reverse s.toList.reverse then
    (s.toList.take (s.toList.length - pat.length)).asString
  else s

/-- The claim's one-pass characterisation of the point lookup: rows
matching all four filter fields exactly, first non-missing value per
company column (or the sentinel), display names with every " rates"
occurrence removed. -/
def lookupOneShot (df : DataFrame) (age : ℚ) (gender occupation benefit : String) :
    List LookRow :=
  (get_company_columns df).map (fun comp =>
    let matchRows := df.rows.filter (fun r =>
      cellEqVal (df.cellAt r ("Age")) (Val.num age) &&
      cellEqVal (df.cellAt r ("Gender")) (Val.str gender) &&
      cellEqVal (df.cellAt r ("Occupation")) (Val.str occupation) &&
      cellEqVal (df.cellAt r ("BenefitType")) (Val.str benefit))
    let firstVal := ((matchRows.map (fun r => df.cellAt r comp)).filterMap id).head?
    (⟨stripRates comp,
      match firstVal with
      | some v => Display.val v
      | none => Display.noAvail⟩ : LookRow))

/-- Decidable equality for `Except` results, used to evaluate the
embedding at concrete inputs. -/
instance exceptDecEq {ε α : Type} [DecidableEq ε] [DecidableEq α] :
    DecidableEq (Except ε α) := fun a b =>
  match a, b with
  | Except.error e, Except.error f =>
    if h : e = f then Decidable.isTrue (by rw [h])
    else Decidable.isFalse (by intro hh; cases hh; exact h rfl)
  | Except.ok x, Except.ok y =>
    if h : x = y then Decidable.isTrue (by rw [h])
    else Decidable.isFalse (by intro hh; cases hh; exact h rfl)
  | Except.error _, Except.ok _ => Decidable.isFalse (by intro hh; cases hh)
  | Except.ok _, Except.error _ => Decidable.isFalse (by intro hh; cases hh)

/-!
Theorems.  Each claim has exactly one named theorem (plus a witness when
the theorem carries hypotheses, and a counterexample when the claim as
frozen fails on the code).
-/

/-- The Bool gate condition of `classifyStep` made explicit. -/
theorem classifyStep_gate_true (p : Nat) (t : Str) (pv : List (List PCell))
    (h : pv.length < 4 ∨ maxRowLen pv < 4) :
    classifyStep p t pv = Except.ok ClassifyAction.rejected := by
  unfold classifyStep
  rcases h with h | h <;> simp [h]

/-- C1: a table preview with fewer than 4 rows or fewer than 4 columns
(width = maximum row length, 0 for an empty preview) is rejected locally:
`classify_table_with_model` returns `is_rate_table = false` with an empty
sheet title, and no remote call is issued — for every remote oracle. -/
theorem C1_structural_gate (remote : Payload → Except String ClsResult)
    (p : Nat) (t : Str) (pv : List (List PCell))
    (h : pv.length < 4 ∨ maxRowLen pv < 4) :
    classify_table_with_model remote p t pv = Except.ok ⟨false, []⟩ ∧
    classifyCalls p t pv = [] := by
  have hs := classifyStep_gate_true p t pv h
  exact ⟨by simp [classify_table_with_model, hs], by simp [classifyCalls, hs]⟩

/-- C1 witness: a 3-row preview is rejected without consulting even an
always-accepting oracle. -/
theorem C1_structural_gate_witness :
    classify_table_with_model remoteYes 0 [] pvSmall = Except.ok ⟨false, []⟩ ∧
    classifyCalls 0 [] pvSmall = [] :=
  C1_structural_gate remoteYes 0 [] pvSmall (Or.inl (by decide))

/-- A non-empty row's density check never raises. -/
theorem is_numeric_row_ok (r : List PCell) (hr : r ≠ []) :
    is_numeric_row r =
      Except.ok (decide (r.length ≤ 2 * (r.filter cellHasDigit).length)) := by
  have hlen : ¬ r.length = 0 := by simpa [List.length_eq_zero] using hr
  simp [is_numeric_row, hlen]

/-- When every preview row is non-empty, the numeric-row count computes
without a ZeroDivisionError (stated for any fold accumulator). -/
theorem numericFold_ok (pv : List (List PCell)) (h : ∀ r ∈ pv, r ≠ []) :
    ∀ a : Nat, ∃ n, (pv.foldlM (fun n r => do
      let b ← is_numeric_row r
      pure (n + (if b then 1 else 0))) a : Except String Nat) = Except.ok n := by
  induction pv with
  | nil => exact fun a => ⟨a, rfl⟩
  | cons r rest ih =>
    intro a
    have hr : r ≠ [] := h r (by simp)
    have hrest : ∀ x ∈ rest, x ≠ [] := fun x hx => h x (by simp [hx])
    cases hb : decide (r.length ≤ 2 * (r.filter cellHasDigit).length) with
    | false =>
      obtain ⟨n, hn⟩ := ih hrest a
      refine ⟨n, ?_⟩
      rw [List.foldlM_cons, is_numeric_row_ok r hr, hb]
      exact hn
    | true =>
      obtain ⟨n, hn⟩ := ih hrest (a + 1)
      refine ⟨n, ?_⟩
      rw [List.foldlM_cons, is_numeric_row_ok r hr, hb]
      exact hn

/-- When every preview row is non-empty, the numeric-row count computes
without a ZeroDivisionError. -/
theorem numericCountE_ok_of_nonempty (pv : List (List PCell))
    (h : ∀ r ∈ pv, r ≠ []) : ∃ n, numericCountE pv = Except.ok n :=
  numericFold_ok pv h 0

/-- C2 counterexample: this gate-passing preview (4 rows, width 4) has a
zero-length row; its only possibly-numeric row count is below 2 under any
reading, yet the source raises ZeroDivisionError instead of returning the
rejection dict — so classification neither returns
`is_rate_table = false` nor stays exception-free. -/
theorem C2_numeric_gate_counterexample :
    ¬ (pvC2ce.length < 4 ∨ maxRowLen pvC2ce < 4) ∧
    (∀ r ∈ pvC2ce, r ≠ [] → is_numeric_row r = Except.ok false) ∧
    classify_table_with_model remoteYes 0 [] pvC2ce =
      Except.error ("ZeroDivisionError") := by
  refine ⟨by decide, by decide, by decide⟩

/-- C2 (amended): a preview that passes the structural gate and whose
rows are all non-empty (so the density computation completes, with count
`n`) is rejected locally when `n < 2`: `classify_table_with_model`
returns `is_rate_table = false` with an empty sheet title and no remote
call is issued, for every remote oracle. -/
theorem C2_numeric_gate (remote : Payload → Except String ClsResult)
    (p : Nat) (t : Str) (pv : List (List PCell)) (n : Nat)
    (_hgate : ¬ (pv.length < 4 ∨ maxRowLen pv < 4))
    (hcount : numericCountE pv = Except.ok n) (hn : n < 2) :
    classify_table_with_model remote p t pv = Except.ok ⟨false, []⟩ ∧
    classifyCalls p t pv = [] := by
  have hstep : classifyStep p t pv = Except.ok ClassifyAction.rejected := by
    unfold classifyStep
    simp [hcount, hn, Bind.bind, Except.bind, pure, Except.pure]
  exact ⟨by simp [classify_table_with_model, hstep],
         by simp [classifyCalls, hstep]⟩

/-- C2 witness: an all-letters 4×4 preview has zero numeric rows and is
rejected locally even against an always-accepting oracle. -/
theorem C2_numeric_gate_witness :
    classify_table_with_model remoteYes 0 [] pvC2w = Except.ok ⟨false, []⟩ ∧
    classifyCalls 0 [] pvC2w = [] :=
  C2_numeric_gate remoteYes 0 [] pvC2w 0 (by decide) (by decide) (by decide)

/-- C10 counterexample: a preview passing the structural gate whose first
row is zero-length makes `is_numeric_row` divide by zero, so
`classifyStep` raises instead of reaching a decision. -/
theorem C10_division_counterexample :
    ¬ (pvC10ce.length < 4 ∨ maxRowLen pvC10ce < 4) ∧
    classifyStep 0 [] pvC10ce = Except.error ("ZeroDivisionError") := by
  refine ⟨by decide, by decide⟩

/-- C10 (amended): on a preview that passes the structural gate and all
of whose rows are non-empty, the per-row density division is defined, and
the local classification logic reaches a decision rather than raising. -/
theorem C10_density_defined (p : Nat) (t : Str) (pv : List (List PCell))
    (hgate : ¬ (pv.length < 4 ∨ maxRowLen pv < 4))
    (hrows : ∀ r ∈ pv, r ≠ []) :
    ∃ a, classifyStep p t pv = Except.ok a := by
  push_neg at hgate
  obtain ⟨n, hcount⟩ := numericCountE_ok_of_nonempty pv hrows
  unfold classifyStep
  by_cases hn : n < 2
  · exact ⟨ClassifyAction.rejected,
      by simp [hgate.1, hgate.2, hcount, hn, Bind.bind, Except.bind, pure, Except.pure]⟩
  · exact ⟨ClassifyAction.remoteCall ⟨p, (pageTextLower t).take 1500, pv⟩,
      by simp [hgate.1, hgate.2, hcount, hn, Bind.bind, Except.bind, pure, Except.pure]⟩

/-- C10 witness: an all-digits 4×4 preview reaches a decision. -/
theorem C10_density_defined_witness :
    ∃ a, classifyStep 0 [] pvDigits = Except.ok a :=
  C10_density_defined 0 [] pvDigits (by decide) (by decide)

/-- A preview passing both local gates makes `classifyStep` issue the
remote call with the assembled payload. -/
theorem classifyStep_remote (p : Nat) (t : Str) (pv : List (List PCell)) (n : Nat)
    (hgate : ¬ (pv.length < 4 ∨ maxRowLen pv < 4))
    (hcount : numericCountE pv = Except.ok n) (hn : 2 ≤ n) :
    classifyStep p t pv =
      Except.ok (ClassifyAction.remoteCall ⟨p, (pageTextLower t).take 1500, pv⟩) := by
  push_neg at hgate
  have hn2 : ¬ n < 2 := Nat.not_lt.mpr hn
  unfold classifyStep
  simp [hgate.1, hgate.2, hcount, hn2, Bind.bind, Except.bind, pure, Except.pure]

/-- A substring found in the right part is found in the whole. -/
theorem hasSub_append_of_right (pat xs ys : Str) (h : hasSub pat ys = true) :
    hasSub pat (xs ++ ys) = true := by
  induction xs with
  | nil => simpa using h
  | cons x xs ih => simp [hasSub, ih]

/-- No pattern starting with a character other than `c` occurs in a pure
`c`-run. -/
theorem hasSub_replicate (n : Nat) (c p : Char) (ps : Str)
    (h : (p == c) = false) :
    hasSub (p :: ps) (List.replicate n c) = false := by
  induction n with
  | zero => simp [hasSub]
  | succ n ih => simp [List.replicate_succ, hasSub, leadsWith, h, ih]

/-- The head-based form of `hasSub_replicate`. -/
theorem hasSub_replicate' (n : Nat) (c : Char) (k : Str)
    (hh : k.head? ≠ some c) (hne : k ≠ []) :
    hasSub k (List.replicate n c) = false := by
  cases k with
  | nil => exact absurd rfl hne
  | cons p ps =>
    refine hasSub_replicate n c p ps ?_
    by_cases h : p = c
    · exact absurd (by simp [h]) hh
    · simp [h]

/-- The lower-casing of the two contrasting page texts. -/
theorem pageTextLower_textT2 : pageTextLower textT2 = List.replicate 1500 'a' := by
  unfold pageTextLower textT2
  rw [List.map_replicate, show Char.toLower 'a' = 'a' from by decide]

/-- C4 counterexample: two page texts — one containing the keyword "cost"
(only beyond the 1500-character truncation point), one containing no
keyword — produce different keyword signals but exactly the same
classification step and hence the same remote payload: the computed
signal is not part of the prompt context sent to the classifier. -/
theorem C4_keyword_counterexample :
    hitKeyword textT1 = true ∧ hitKeyword textT2 = false ∧
    classifyStep 0 textT1 pvDigits = classifyStep 0 textT2 pvDigits := by
  have hlowcost : List.map Char.toLower (("cost").toList) = ("cost").toList := by decide
  have h1low : pageTextLower textT1 =
      List.replicate 1500 'a' ++ ("cost").toList := by
    unfold pageTextLower textT1
    rw [List.map_append, List.map_replicate, hlowcost,
        show Char.toLower 'a' = 'a' from by decide]
  have hk1 : hitKeyword textT1 = true := by
    unfold hitKeyword
    rw [h1low]
    have hc : hasSub (("cost").toList) (List.replicate 1500 'a' ++ ("cost").toList) = true :=
      hasSub_append_of_right _ _ _ (by decide)
    simp only [KEYWORDS, List.any_cons, hc, Bool.true_or]
  have hk2 : hitKeyword textT2 = false := by
    unfold hitKeyword
    rw [pageTextLower_textT2]
    have hall : ∀ k ∈ KEYWORDS, ¬ (hasSub k (List.replicate 1500 'a') = true) := by
      intro k hk
      have hne : k ≠ [] ∧ k.head? ≠ some 'a' := by
        simp only [KEYWORDS, List.mem_cons, List.not_mem_nil, or_false] at hk
        rcases hk with rfl | rfl | rfl | rfl | rfl | rfl | rfl | rfl | rfl | rfl | rfl <;>
          exact ⟨by decide, by decide⟩
      rw [hasSub_replicate' 1500 'a' k hne.2 hne.1]
      simp
    simp only [List.any_eq_false]
    exact hall
  have hlen1500 : (List.replicate 1500 'a').length = 1500 := by
    rw [List.length_replicate]
  have htake1 : (pageTextLower textT1).take 1500 = List.replicate 1500 'a' := by
    rw [h1low, List.take_left' hlen1500]
  have htake2 : (pageTextLower textT2).take 1500 = List.replicate 1500 'a' := by
    rw [pageTextLower_textT2, List.take_replicate, Nat.min_self]
  have h1 : classifyStep 0 textT1 pvDigits =
      Except.ok (ClassifyAction.remoteCall ⟨0, (pageTextLower textT1).take 1500, pvDigits⟩) :=
    classifyStep_remote 0 textT1 pvDigits 4 (by decide) (by decide) (by decide)
  have h2 : classifyStep 0 textT2 pvDigits =
      Except.ok (ClassifyAction.remoteCall ⟨0, (pageTextLower textT2).take 1500, pvDigits⟩) :=
    classifyStep_remote 0 textT2 pvDigits 4 (by decide) (by decide) (by decide)
  rw [htake1] at h1
  rw [htake2] at h2
  exact ⟨hk1, hk2, h1.trans h2.symm⟩

/-- C4 (amended): for every preview passing gates 1-2 the remote call is
issued whether or not a keyword is found, and its payload is exactly the
page index, the lower-cased page text truncated to 1500 characters, and
the preview — the computed keyword signal itself is not included. -/
theorem C4_keyword_advisory (p : Nat) (t : Str) (pv : List (List PCell)) (n : Nat)
    (hgate : ¬ (pv.length < 4 ∨ maxRowLen pv < 4))
    (hcount : numericCountE pv = Except.ok n) (hn : 2 ≤ n) :
    classifyStep p t pv =
      Except.ok (ClassifyAction.remoteCall ⟨p, (pageTextLower t).take 1500, pv⟩) ∧
    ∀ remote, classify_table_with_model remote p t pv =
      remote ⟨p, (pageTextLower t).take 1500, pv⟩ := by
  have hstep := classifyStep_remote p t pv n hgate hcount hn
  exact ⟨hstep, fun remote => by simp [classify_table_with_model, hstep]⟩

/-- C4 witness: an all-digits 4×4 preview with empty page text (no
keyword hit) still issues the remote call, with the empty-text payload. -/
theorem C4_keyword_advisory_witness :
    classifyStep 0 [] pvDigits =
      Except.ok (ClassifyAction.remoteCall ⟨0, (pageTextLower []).take 1500, pvDigits⟩) ∧
    ∀ remote, classify_table_with_model remote 0 [] pvDigits =
      remote ⟨0, (pageTextLower []).take 1500, pvDigits⟩ :=
  C4_keyword_advisory 0 [] pvDigits 4 (by decide) (by decide) (by decide)

/-- C3: if classification of a (non-falsy) table fails for any reason,
the processing loop appends nothing for it, logs a warning carrying the
1-based page and table indices and the failure text, continues with the
remaining tables of the page, and the table's classification was invoked
at most once (at most one remote call in its trace). -/
theorem C3_failure_skips_table (remote : Payload → Except String ClsResult)
    (p : Nat) (t : Str) (i : Nat) (e : String)
    (tbl : List (List PCell)) (rest : List (List (List PCell)))
    (htbl : tbl ≠ [])
    (herr : classify_table_with_model remote p t (tablePreview tbl) = Except.error e) :
    runTables remote p t i (tbl :: rest) =
      ((runTables remote p t (i + 1) rest).1,
       ⟨p + 1, i + 1, e⟩ :: (runTables remote p t (i + 1) rest).2.1,
       classifyCalls p t (tablePreview tbl) ++ (runTables remote p t (i + 1) rest).2.2) ∧
    (classifyCalls p t (tablePreview tbl)).length ≤ 1 := by
  constructor
  · cases tbl with
    | nil => exact absurd rfl htbl
    | cons r rs => simp [runTables, herr]
  · unfold classifyCalls
    rcases classifyStep p t (tablePreview tbl) with _ | a
    · simp
    · cases a <;> simp

/-- C3 witness: a failing oracle on a 4×4 digit table yields exactly the
logged warning, no accepted table, and a single issued call. -/
theorem C3_failure_skips_table_witness :
    runTables remoteBoom 0 [] 0 [pvDigits] =
      ((runTables remoteBoom 0 [] 1 []).1,
       ⟨1, 1, ("boom")⟩ :: (runTables remoteBoom 0 [] 1 []).2.1,
       classifyCalls 0 [] (tablePreview pvDigits) ++ (runTables remoteBoom 0 [] 1 []).2.2) ∧
    (classifyCalls 0 [] (tablePreview pvDigits)).length ≤ 1 :=
  C3_failure_skips_table remoteBoom 0 [] 0 ("boom") pvDigits [] (by decide) (by decide)

/-- Digit characters are never the underscore. -/
theorem digitCh_ne_underscore : ∀ r < 10, digitCh r ≠ '_' := by decide

/-- Digit characters are injective below 10. -/
theorem digitCh_inj : ∀ a < 10, ∀ b < 10, digitCh a = digitCh b → a = b := by decide

/-- The single-digit equation of `natDigits`. -/
theorem natDigits_lt {n : Nat} (h : n < 10) : natDigits n = [digitCh n] := by
  rw [natDigits, dif_pos h]

/-- The multi-digit equation of `natDigits`. -/
theorem natDigits_ge {n : Nat} (h : ¬ n < 10) :
    natDigits n = natDigits (n / 10) ++ [digitCh (n % 10)] := by
  conv =>
    lhs
    rw [natDigits]
  rw [dif_neg h]

/-- A decimal rendering is never empty. -/
theorem natDigits_ne_nil (n : Nat) : natDigits n ≠ [] := by
  by_cases h : n < 10
  · rw [natDigits_lt h]; simp
  · rw [natDigits_ge h]; simp

/-- Every character of a decimal rendering is a digit character. -/
theorem natDigits_mem (n : Nat) : ∀ ch ∈ natDigits n, ∃ r, r < 10 ∧ ch = digitCh r := by
  induction n using Nat.strong_induction_on with
  | _ n ih =>
    intro ch hch
    by_cases h : n < 10
    · rw [natDigits_lt h] at hch
      simp at hch
      exact ⟨n, h, hch⟩
    · rw [natDigits_ge h] at hch
      rcases List.mem_append.mp hch with hl | hr
      · exact ih (n / 10) (Nat.div_lt_self (by omega) (by norm_num)) ch hl
      · simp at hr
        exact ⟨n % 10, Nat.mod_lt n (by norm_num), hr⟩

/-- Decimal renderings are injective. -/
theorem natDigits_inj : ∀ m n, natDigits m = natDigits n → m = n := by
  intro m
  induction m using Nat.strong_induction_on with
  | _ m ih =>
    intro n h
    by_cases hm : m < 10 <;> by_cases hn : n < 10
    · rw [natDigits_lt hm, natDigits_lt hn] at h
      simp at h
      exact digitCh_inj m hm n hn h
    · exfalso
      rw [natDigits_lt hm, natDigits_ge hn] at h
      have hl := congrArg List.length h
      simp only [List.length_append, List.length_cons, List.length_nil] at hl
      exact natDigits_ne_nil (n / 10) (List.eq_nil_of_length_eq_zero (by omega))
    · exfalso
      rw [natDigits_ge hm, natDigits_lt hn] at h
      have hl := congrArg List.length h
      simp only [List.length_append, List.length_cons, List.length_nil] at hl
      exact natDigits_ne_nil (m / 10) (List.eq_nil_of_length_eq_zero (by omega))
    · rw [natDigits_ge hm, natDigits_ge hn] at h
      have hrev := congrArg List.reverse h
      simp only [List.reverse_append, List.reverse_cons, List.reverse_nil,
        List.nil_append, List.singleton_append, List.cons.injEq] at hrev
      obtain ⟨hlast, hrest⟩ := hrev
      have hmod : m % 10 = n % 10 :=
        digitCh_inj _ (Nat.mod_lt m (by norm_num)) _ (Nat.mod_lt n (by norm_num)) hlast
      have hdiv : m / 10 = n / 10 :=
        ih (m / 10) (Nat.div_lt_self (by omega) (by norm_num)) (n / 10)
          (List.reverse_injective hrest)
      omega

/-- Size of a decimal rendering. -/
theorem natDigits_len_le : ∀ (d n : Nat), n < 10 ^ (d + 1) → (natDigits n).length ≤ d + 1 := by
  intro d
  induction d with
  | zero =>
    intro n h
    rw [natDigits_lt (by simpa using h)]
    simp
  | succ d ihd =>
    intro n h
    by_cases hn : n < 10
    · rw [natDigits_lt hn]; simp
    · rw [natDigits_ge hn]
      have hmul : n < 10 * 10 ^ (d + 1) := by
        calc n < 10 ^ (d + 1 + 1) := h
        _ = 10 * 10 ^ (d + 1) := by ring
      have := ihd (n / 10) (Nat.div_lt_of_lt_mul hmul)
      simp
      omega

/-- Reversal of a name of the shape `P ++ "_" ++ D`. -/
theorem rev_shape (P D : Str) :
    (P ++ '_' :: D).reverse = D.reverse ++ '_' :: P.reverse := by
  simp [List.reverse_append, List.reverse_cons, List.append_assoc]

/-- In reverse, position `D.length` of `P ++ "_" ++ D` holds the
underscore. -/
theorem rev_elem_underscore (P D : Str) :
    ((P ++ '_' :: D).reverse)[D.length]? = some '_' := by
  rw [rev_shape]
  rw [List.getElem?_append_right (by simp)]
  simp

/-- In reverse, positions before `D.length` of `P ++ "_" ++ D` read from
`D.reverse`. -/
theorem rev_elem_lt (P D : Str) (i : Nat) (hi : i < D.length) :
    ((P ++ '_' :: D).reverse)[i]? = (D.reverse)[i]? := by
  rw [rev_shape]
  rw [List.getElem?_append_left (by simpa using hi)]

/-- Candidate names built from suffixes of different digit lengths are
distinct: an underscore and a digit character collide. -/
theorem candName_ne_of_len_lt (base : Str) (k1 k2 : Nat)
    (hlt : (natDigits k1).length < (natDigits k2).length) :
    candName base k1 ≠ candName base k2 := by
  intro h
  have hrev := congrArg (fun l => (List.reverse l)[(natDigits k1).length]?) h
  unfold candName at hrev
  dsimp only at hrev
  rw [rev_elem_underscore] at hrev
  rw [rev_elem_lt _ _ _ hlt] at hrev
  have hlen : (natDigits k1).length < (natDigits k2).reverse.length := by simpa using hlt
  rw [List.getElem?_eq_getElem hlen] at hrev
  have hmem : (natDigits k2).reverse[(natDigits k1).length] ∈ natDigits k2 :=
    List.mem_reverse.mp (List.getElem_mem hlen)
  obtain ⟨r, hr, hch⟩ := natDigits_mem k2 _ hmem
  have : '_' = digitCh r := by
    have := Option.some.inj hrev
    rw [this, hch]
  exact digitCh_ne_underscore r hr this.symm

/-- Candidate names are injective in the collision counter. -/
theorem candName_inj (base : Str) (k1 k2 : Nat)
    (h : candName base k1 = candName base k2) : k1 = k2 := by
  rcases Nat.lt_trichotomy (natDigits k1).length (natDigits k2).length with hlt | heq | hgt
  · exact absurd h (candName_ne_of_len_lt base k1 k2 hlt)
  · have hP : pySliceTo base (31 - (('_' :: natDigits k1).length : Int)) =
        pySliceTo base (31 - (('_' :: natDigits k2).length : Int)) := by
      rw [show ('_' :: natDigits k1).length = ('_' :: natDigits k2).length by simp [heq]]
    unfold candName at h
    rw [hP] at h
    have htail := List.append_cancel_left h
    have hD : natDigits k1 = natDigits k2 := by
      simpa using htail
    exact natDigits_inj k1 k2 hD
  · exact absurd h.symm (candName_ne_of_len_lt base k2 k1 hgt)

/-- Pigeonhole: among the candidates `_1 .. _(|used|+2)` some name is
not yet used. -/
theorem exists_free_cand (used : List Str) (base : Str) :
    ∃ j, 1 ≤ j ∧ j < 1 + (used.length + 2) ∧ candName base j ∉ used := by
  by_contra hc
  push_neg at hc
  have hinj : Function.Injective (fun i : Nat => candName base (i + 1)) := by
    intro a b hab
    have := candName_inj base (a + 1) (b + 1) hab
    omega
  have hnodup : ((List.range (used.length + 2)).map (fun i => candName base (i + 1))).Nodup :=
    (List.nodup_range _).map hinj
  have hsub : ((List.range (used.length + 2)).map (fun i => candName base (i + 1))).toFinset ⊆
      used.toFinset := by
    intro x hx
    rw [List.mem_toFinset] at hx ⊢
    simp only [List.mem_map, List.mem_range] at hx
    obtain ⟨i, hi, rfl⟩ := hx
    exact hc (i + 1) (by omega) (by omega)
  have h1 : ((List.range (used.length + 2)).map (fun i => candName base (i + 1))).toFinset.card =
      used.length + 2 := by
    rw [List.toFinset_card_of_nodup hnodup, List.length_map, List.length_range]
  have h3 := Finset.card_le_card hsub
  have h4 : used.toFinset.card ≤ used.length := List.toFinset_card_le _
  omega

/-- A name already free is returned unchanged by the collision loop. -/
theorem allocGo_id (used : List Str) (base name : Str) (fuel k : Nat)
    (h : name ∉ used) : allocGo used base fuel k name = name := by
  cases fuel with
  | zero => rfl
  | succ f => simp [allocGo, h]

/-- With a free candidate inside the fuel window, the collision loop
returns an unused name. -/
theorem allocGo_not_mem (used : List Str) (base : Str) :
    ∀ (fuel k : Nat) (name : Str),
      (∃ j, k ≤ j ∧ j < k + fuel ∧ candName base j ∉ used) →
      allocGo used base fuel k name ∉ used := by
  intro fuel
  induction fuel with
  | zero =>
    intro k name h
    obtain ⟨j, h1, h2, _⟩ := h
    omega
  | succ f ih =>
    intro k name h
    by_cases hn : name ∈ used
    · simp only [allocGo, if_pos hn]
      by_cases hck : candName base k ∈ used
      · refine ih (k + 1) (candName base k) ?_
        obtain ⟨j, hj1, hj2, hj3⟩ := h
        refine ⟨j, ?_, by omega, hj3⟩
        rcases Nat.eq_or_lt_of_le hj1 with rfl | hlt
        · exact absurd hck hj3
        · omega
      · rw [allocGo_id used base (candName base k) f (k + 1) hck]
        exact hck
    · simp only [allocGo, if_neg hn]
      exact hn

/-- The collision loop returns the starting name or a suffixed candidate
with counter inside the fuel window. -/
theorem allocGo_shape (used : List Str) (base : Str) :
    ∀ (fuel k : Nat) (name : Str),
      allocGo used base fuel k name = name ∨
      ∃ j, k ≤ j ∧ j < k + fuel ∧ allocGo used base fuel k name = candName base j := by
  intro fuel
  induction fuel with
  | zero => intro k name; left; rfl
  | succ f ih =>
    intro k name
    by_cases hn : name ∈ used
    · simp only [allocGo, if_pos hn]
      rcases ih (k + 1) (candName base k) with heq | ⟨j, hj1, hj2, hj3⟩
      · right; exact ⟨k, Nat.le_refl k, by omega, heq⟩
      · right; exact ⟨j, by omega, by omega, hj3⟩
    · left; simp only [allocGo, if_neg hn]

/-- The allocated sheet name is never one already used. -/
theorem allocateName_not_mem (used : List Str) (base : Str) :
    allocateName used base ∉ used := by
  unfold allocateName
  obtain ⟨j, h1, h2, h3⟩ := exists_free_cand used base
  exact allocGo_not_mem used base (used.length + 2) 1 base ⟨j, h1, h2, h3⟩

/-- The allocated sheet name is the truncated base or a suffixed
candidate with small counter. -/
theorem allocateName_shape (used : List Str) (base : Str) :
    allocateName used base = base ∨
    ∃ j, 1 ≤ j ∧ j < used.length + 3 ∧ allocateName used base = candName base j := by
  unfold allocateName
  rcases allocGo_shape used base (used.length + 2) 1 base with h | ⟨j, h1, h2, h3⟩
  · left; exact h
  · right; exact ⟨j, h1, by omega, h3⟩

/-- Length bound of a non-negative Python slice. -/
theorem pySliceTo_len_le (s : Str) (m : Int) (hm : 0 ≤ m) :
    (pySliceTo s m).length ≤ m.toNat := by
  unfold pySliceTo
  rw [if_neg (by omega)]
  simp [List.length_take]

/-- A candidate name with at most 30 digits of counter fits in 31
characters. -/
theorem candName_len_le (base : Str) (k : Nat)
    (h : (natDigits k).length ≤ 30) : (candName base k).length ≤ 31 := by
  unfold candName
  have h0 : (0 : Int) ≤ 31 - (('_' :: natDigits k).length : Int) := by
    simp only [List.length_cons]
    omega
  have hs := pySliceTo_len_le base (31 - (('_' :: natDigits k).length : Int)) h0
  simp only [List.length_append, List.length_cons] at hs ⊢
  omega

/-- Full specification of the writer loop: one name per table, none
reusing an already-used name, pairwise distinct, and each either the
31-truncated title or a suffixed candidate with a bounded counter. -/
theorem assignGo_spec : ∀ (ts used : List Str),
    (assignGo used ts).length = ts.length ∧
    (∀ nm ∈ assignGo used ts, nm ∉ used) ∧
    (assignGo used ts).Nodup ∧
    (∀ i, i < ts.length →
      ((assignGo used ts).getD i [] = (ts.getD i []).take 31 ∨
       ∃ j, 1 ≤ j ∧ j < used.length + ts.length + 3 ∧
         (assignGo used ts).getD i [] = candName ((ts.getD i []).take 31) j)) := by
  intro ts
  induction ts with
  | nil =>
    intro used
    refine ⟨rfl, by simp [assignGo], by simp [assignGo], ?_⟩
    intro i hi
    simp at hi
  | cons t rest ih =>
    intro used
    obtain ⟨ihlen, ihmem, ihnodup, ihshape⟩ := ih (allocateName used (t.take 31) :: used)
    have hunfold : assignGo used (t :: rest) =
        allocateName used (t.take 31) ::
          assignGo (allocateName used (t.take 31) :: used) rest := rfl
    refine ⟨?_, ?_, ?_, ?_⟩
    · rw [hunfold]
      simp [ihlen]
    · intro nm hnm
      rw [hunfold] at hnm
      rcases List.mem_cons.mp hnm with rfl | hmem
      · exact allocateName_not_mem used (t.take 31)
      · exact fun hcontra => (ihmem nm hmem) (List.mem_cons_of_mem _ hcontra)
    · rw [hunfold]
      refine List.nodup_cons.mpr ⟨?_, ihnodup⟩
      intro hmem
      exact (ihmem _ hmem) (List.mem_cons_self _ _)
    · intro i hi
      rw [hunfold]
      cases i with
      | zero =>
        rcases allocateName_shape used (t.take 31) with h | ⟨j, h1, h2, h3⟩
        · left; simpa using h
        · right
          refine ⟨j, h1, ?_, by simpa using h3⟩
          simp only [List.length_cons]
          omega
      | succ i' =>
        have hi' : i' < rest.length := by simpa using hi
        rcases ihshape i' hi' with h | ⟨j, h1, h2, h3⟩
        · left; simpa using h
        · right
          refine ⟨j, h1, ?_, by simpa using h3⟩
          simp only [List.length_cons] at h2 ⊢
          omega

/-- C5: for any workbook of at most a million accepted tables, the
writer assigns pairwise-distinct sheet names, each at most 31 characters;
every name is either its title's 31-character truncation or that
truncation right-truncated further and suffixed `_N` for some N ≥ 1 — in
particular two tables whose titles share a 31-character truncation still
receive distinct names. -/
theorem C5_sheet_name_allocation (titles : List Str)
    (hsize : titles.length ≤ 1000000) :
    (assignNames titles).length = titles.length ∧
    (assignNames titles).Nodup ∧
    ∀ i, i < titles.length →
      ((assignNames titles).getD i []).length ≤ 31 ∧
      ((assignNames titles).getD i [] = (titles.getD i []).take 31 ∨
       ∃ j, 1 ≤ j ∧
         (assignNames titles).getD i [] = candName ((titles.getD i []).take 31) j) := by
  obtain ⟨hlen, _, hnodup, hshape⟩ := assignGo_spec titles []
  refine ⟨hlen, hnodup, ?_⟩
  intro i hi
  rcases hshape i hi with h | ⟨j, hj1, hj2, hj3⟩
  · refine ⟨?_, Or.inl h⟩
    rw [show assignNames titles = assignGo [] titles from rfl, h]
    simp [List.length_take]
  · refine ⟨?_, Or.inr ⟨j, hj1, hj3⟩⟩
    rw [show assignNames titles = assignGo [] titles from rfl, hj3]
    refine candName_len_le _ j ?_
    have hj : j < 10 ^ (6 + 1) := by
      simp only [List.length_nil, Nat.zero_add] at hj2
      have : (10 : Nat) ^ (6 + 1) = 10000000 := by norm_num
      omega
    have := natDigits_len_le 6 j hj
    omega

/-- C5 witness: two identical 37-character titles receive distinct names
within the bound. -/
theorem C5_sheet_name_allocation_witness :
    (assignNames titlesW).length = titlesW.length ∧
    (assignNames titlesW).Nodup ∧
    ∀ i, i < titlesW.length →
      ((assignNames titlesW).getD i []).length ≤ 31 ∧
      ((assignNames titlesW).getD i [] = (titlesW.getD i []).take 31 ∨
       ∃ j, 1 ≤ j ∧
         (assignNames titlesW).getD i [] = candName ((titlesW.getD i []).take 31) j) :=
  C5_sheet_name_allocation titlesW (by decide)

/-- C8 counterexample: a company column containing " rates" twice is
displayed with every occurrence removed ("A B"), not with only the
suffix stripped ("A rates B") as the claim states. -/
theorem C8_point_lookup_counterexample :
    build_lookup dfC8ce 30 ("M") ("W") ("D") =
      Except.ok [⟨("A B"), Display.val (Val.num 2)⟩] ∧
    stripSuffixRatesSpec ("A rates B rates") = ("A rates B") ∧
    ("A B") ≠ ("A rates B") := by
  refine ⟨by decide, by decide, by decide⟩

/-- C8 (amended): on a normalized table carrying the four filter columns,
the point lookup returns exactly one row per company column; each row
carries the first non-missing value among the rows matching all four
filter fields exactly, or the "no available" sentinel when none has a
value; each company's display name is the column header with every
occurrence of the literal substring " rates" removed. -/
theorem C8_point_lookup (df : DataFrame) (age : ℚ)
    (gender occupation benefit : String)
    (hA : df.hasCol ("Age") = true) (hG : df.hasCol ("Gender") = true)
    (hO : df.hasCol ("Occupation") = true)
    (hBT : df.hasCol ("BenefitType") = true) :
    build_lookup df age gender occupation benefit =
      Except.ok (lookupOneShot df age gender occupation benefit) := by
  unfold build_lookup
  simp only [hA, hG, hO, hBT, if_true]
  refine congrArg Except.ok ?_
  unfold lookupRows lookupOneShot
  refine List.map_congr_left ?_
  intro comp _
  have hrows : ((((df.filterEq ("Age") (Val.num age)).filterEq ("Gender")
      (Val.str gender)).filterEq ("Occupation") (Val.str occupation)).filterEq
      ("BenefitType") (Val.str benefit)).rows =
      df.rows.filter (fun r =>
        cellEqVal (df.cellAt r ("Age")) (Val.num age) &&
        cellEqVal (df.cellAt r ("Gender")) (Val.str gender) &&
        cellEqVal (df.cellAt r ("Occupation")) (Val.str occupation) &&
        cellEqVal (df.cellAt r ("BenefitType")) (Val.str benefit)) := by
    show ((((df.rows.filter fun r => cellEqVal (df.cellAt r ("Age")) (Val.num age)).filter
        fun r => cellEqVal (df.cellAt r ("Gender")) (Val.str gender)).filter
        fun r => cellEqVal (df.cellAt r ("Occupation")) (Val.str occupation)).filter
        fun r => cellEqVal (df.cellAt r ("BenefitType")) (Val.str benefit)) = _
    rw [List.filter_filter, List.filter_filter, List.filter_filter]
    refine List.filter_congr ?_
    intro r _
    cases cellEqVal (df.cellAt r ("Age")) (Val.num age) <;>
      cases cellEqVal (df.cellAt r ("Gender")) (Val.str gender) <;>
        cases cellEqVal (df.cellAt r ("Occupation")) (Val.str occupation) <;>
          cases cellEqVal (df.cellAt r ("BenefitType")) (Val.str benefit) <;> rfl
  show (⟨stripRates comp, _⟩ : LookRow) = ⟨stripRates comp, _⟩
  refine congrArg _ ?_
  simp only [DataFrame.colVals, hrows]
  by_cases hq : (df.rows.filter (fun r =>
      cellEqVal (df.cellAt r ("Age")) (Val.num age) &&
      cellEqVal (df.cellAt r ("Gender")) (Val.str gender) &&
      cellEqVal (df.cellAt r ("Occupation")) (Val.str occupation) &&
      cellEqVal (df.cellAt r ("BenefitType")) (Val.str benefit))).isEmpty = true
  · rw [if_pos hq, List.isEmpty_iff.mp hq]
    rfl
  · rw [if_neg hq]
    rfl

/-- Numeric coercion preserves the column list. -/
theorem coerceCol_cols (df : DataFrame) (pn : String → Option ℚ) (c : String) :
    (df.coerceCol pn c).cols = df.cols := by
  unfold DataFrame.coerceCol
  split <;> rfl

/-- A conditional filter assignment preserves the column list. -/
theorem apply_filter_cols {c : String} {v : Val} (P : Prop) [Decidable P]
    (f : DataFrame) : (if P then f.filterEq c v else f).cols = f.cols := by
  split <;> rfl

/-- The conditional filter assignments preserve the column list. -/
theorem condChain_cols (f : DataFrame) (bc : Bool) (b : String)
    (bp wp : Option String) : (condChain f bc b bp wp).cols = f.cols := by
  unfold condChain
  simp only [apply_filter_cols]

/-- The shared filter chain preserves the column list. -/
theorem demoFiltered_cols (df : DataFrame) (g o b : String)
    (bp wp : Option String) : (demoFiltered df g o b bp wp).cols = df.cols := by
  unfold demoFiltered
  rw [condChain_cols]
  rfl

/-- The coercion-only loop preserves the column list. -/
theorem coerceAll_cols (pn : String → Option ℚ) :
    ∀ (cs : List String) (f : DataFrame), (coerceAll pn cs f).cols = f.cols := by
  intro cs
  induction cs with
  | nil => intro f; rfl
  | cons c rest ih =>
    intro f
    unfold coerceAll at ih ⊢
    rw [List.foldl_cons, ih, coerceCol_cols]

/-- The filtered-and-coerced frame of `build_relative_trend` has the
input's columns. -/
theorem relFiltered_cols (pn : String → Option ℚ) (df : DataFrame)
    (base : String) (comps : List String) (g o b : String)
    (bp wp : Option String) :
    (relFiltered pn df base comps g o b bp wp).cols = df.cols := by
  unfold relFiltered
  rw [coerceAll_cols, demoFiltered_cols]

/-- A fold in the `Except` monad whose step never fails never fails. -/
theorem foldlM_ok {α β : Type} (f : β → α → Except String β) (l : List α)
    (hf : ∀ a ∈ l, ∀ b, ∃ b', f b a = Except.ok b') :
    ∀ b, ∃ b', l.foldlM f b = Except.ok b' := by
  induction l with
  | nil => exact fun b => ⟨b, rfl⟩
  | cons a rest ih =>
    intro b
    obtain ⟨b1, hb1⟩ := hf a (by simp) b
    obtain ⟨b2, hb2⟩ := ih (fun x hx b => hf x (by simp [hx]) b) b1
    refine ⟨b2, ?_⟩
    rw [List.foldlM_cons, hb1]
    exact hb2

/-- A step on a present compare company never fails. -/
theorem relStep_ok (F : DataFrame) (bs : List (Val × ℚ))
    (acc : List (List RelRow) × List String) (comp : String)
    (h : F.hasCol comp = true) :
    ∃ acc', relStep F bs acc comp = Except.ok acc' := by
  unfold relStep
  rw [if_pos h]
  by_cases hj : (bs.filterMap (fun p =>
      match (seriesOf F comp).lookup p.1 with
      | some cq => some (⟨p.1, comp, cq / p.2 * 100⟩ : RelRow)
      | none => none)).isEmpty = true
  · exact ⟨_, by rw [if_pos hj]⟩
  · exact ⟨_, by rw [if_neg hj]⟩

/-- With an empty baseline series every compare company joins empty and
is filed under `missing`, in order. -/
theorem relFold_empty (F : DataFrame) :
    ∀ (comps : List String), (∀ c ∈ comps, F.hasCol c = true) →
    ∀ (acc : List (List RelRow) × List String),
      comps.foldlM (relStep F []) acc = Except.ok (acc.1, acc.2 ++ comps) := by
  intro comps
  induction comps with
  | nil =>
    intro _ acc
    simp [pure, Except.pure]
  | cons c rest ih =>
    intro h acc
    have hc : F.hasCol c = true := h c (by simp)
    have hstep : relStep F [] acc c = Except.ok (acc.1, acc.2 ++ [c]) := by
      unfold relStep
      rw [if_pos hc]
      rfl
    rw [List.foldlM_cons, hstep]
    have hrest := ih (fun x hx => h x (by simp [hx])) (acc.1, acc.2 ++ [c])
    calc (Except.ok (acc.1, acc.2 ++ [c]) >>= fun b => rest.foldlM (relStep F []) b)
        = rest.foldlM (relStep F []) (acc.1, acc.2 ++ [c]) := rfl
    _ = Except.ok (acc.1, (acc.2 ++ [c]) ++ rest) := hrest
    _ = Except.ok (acc.1, acc.2 ++ (c :: rest)) := by simp

/-- A membership in the raw pairs puts the age among the group-mean
keys. -/
theorem mem_seriesOf (F : DataFrame) (c : String) (a : Val) (q : ℚ)
    (h : (a, q) ∈ rawPairs F c) : ∃ m, (a, m) ∈ seriesOf F c := by
  unfold seriesOf groupMeans
  have ha : a ∈ (rawPairs F c).map Prod.fst := List.mem_map.mpr ⟨(a, q), h, rfl⟩
  exact ⟨_, List.mem_map.mpr ⟨a, List.mem_dedup.mpr ha, rfl⟩⟩

/-- Equal column lists give equal column membership. -/
theorem hasCol_of_cols_eq (df df' : DataFrame) (h : df'.cols = df.cols)
    (c : String) : df'.hasCol c = df.hasCol c := by
  unfold DataFrame.hasCol
  rw [h]

/-- The tail of the relative trend succeeds on present columns, and
every age of the baseline's raw pairs is emitted with ratio exactly 100
under the baseline's stripped display name. -/
theorem relTail_mem (F : DataFrame) (base : String) (comps : List String)
    (hA : F.hasCol ("Age") = true) (hB : F.hasCol base = true)
    (hC : ∀ c ∈ comps, F.hasCol c = true) :
    ∃ rows missing bm, relTail F base comps = Except.ok (rows, missing, bm) ∧
      ∀ a q, (a, q) ∈ rawPairs F base →
        (⟨a, stripRates base, 100⟩ : RelRow) ∈ rows := by
  unfold relTail
  have hcond : (F.hasCol ("Age") && F.hasCol base) = true := by rw [hA, hB]; rfl
  rw [if_pos hcond]
  obtain ⟨acc, hacc⟩ := foldlM_ok (relStep F (seriesOf F base)) comps
    (fun c hc b => relStep_ok F (seriesOf F base) b c (hC c hc)) ([], [])
  simp only [hacc]
  by_cases hbs : (seriesOf F base).isEmpty = true
  · simp only [hbs, List.isEmpty_nil, eq_self_iff_true, if_true, List.nil_append]
    by_cases hrows : acc.1.isEmpty = true
    · rw [if_pos hrows]
      refine ⟨[], acc.2, true, rfl, ?_⟩
      intro a q hmem
      exfalso
      obtain ⟨m, hm⟩ := mem_seriesOf F base a q hmem
      rw [List.isEmpty_iff] at hbs
      exact List.ne_nil_of_mem hm hbs
    · rw [if_neg hrows]
      refine ⟨_, acc.2, true, rfl, ?_⟩
      intro a q hmem
      exfalso
      obtain ⟨m, hm⟩ := mem_seriesOf F base a q hmem
      rw [List.isEmpty_iff] at hbs
      exact List.ne_nil_of_mem hm hbs
  · rw [Bool.not_eq_true] at hbs
    simp only [hbs, Bool.false_eq_true, if_false]
    have hmapne : (((seriesOf F base).map
          (fun p => (⟨p.1, base, 100⟩ : RelRow)))).isEmpty = false := by
      rw [List.isEmpty_eq_false] at hbs ⊢
      rw [Ne, List.map_eq_nil_iff]
      exact hbs
    simp only [hmapne, Bool.false_eq_true, if_false, List.singleton_append,
      List.isEmpty_cons, List.flatten_cons]
    refine ⟨_, acc.2, false, rfl, ?_⟩
    intro a q hmem
    obtain ⟨m, hm⟩ := mem_seriesOf F base a q hmem
    refine List.mem_map.mpr ⟨⟨a, base, 100⟩, ?_, rfl⟩
    exact List.mem_append.mpr (Or.inl (List.mem_map.mpr ⟨(a, m), hm, rfl⟩))

/-- With no matching baseline rows the tail returns an empty series, all
compare companies missing, and the baseline-missing flag. -/
theorem relTail_empty (F : DataFrame) (base : String) (comps : List String)
    (hA : F.hasCol ("Age") = true) (hB : F.hasCol base = true)
    (hC : ∀ c ∈ comps, F.hasCol c = true)
    (hp : rawPairs F base = []) :
    relTail F base comps = Except.ok ([], comps, true) := by
  unfold relTail
  have hcond : (F.hasCol ("Age") && F.hasCol base) = true := by rw [hA, hB]; rfl
  rw [if_pos hcond]
  have hbs : seriesOf F base = [] := by
    unfold seriesOf groupMeans
    rw [hp]
    rfl
  rw [hbs]
  simp only [relFold_empty F comps hC ([], [])]
  rfl

/-- C8 witness: the amended lookup characterisation evaluated on a
one-row table with two company columns. -/
theorem C8_point_lookup_witness :
    build_lookup dfC6 30 ("M") ("W") ("D") =
      Except.ok (lookupOneShot dfC6 30 ("M") ("W") ("D")) :=
  C8_point_lookup dfC6 30 ("M") ("W") ("D") (by decide) (by decide) (by decide) (by decide)

/-- C6: under a well-formed request (non-empty baseline name, non-empty
compare list, all referenced columns present), the relative trend
succeeds and, for every age at which the baseline has at least one
numeric value after filtering, emits the baseline's own row at that age
with ratio exactly 100. -/
theorem C6_baseline_ratio_100 (pn : String → Option ℚ) (df : DataFrame)
    (base : String) (comps : List String) (gender occupation benefit : String)
    (bp wp : Option String)
    (hbase : base ≠ "") (hcomps : comps ≠ [])
    (hG : df.hasCol ("Gender") = true) (hO : df.hasCol ("Occupation") = true)
    (hA : df.hasCol ("Age") = true) (hB : df.hasCol base = true)
    (hC : ∀ c ∈ comps, df.hasCol c = true) :
    ∃ rows missing bm,
      build_relative_trend pn df base comps gender occupation benefit bp wp =
        Except.ok (rows, missing, bm) ∧
      ∀ a q, (a, q) ∈ rawPairs
          (relFiltered pn df base comps gender occupation benefit bp wp) base →
        (⟨a, stripRates base, 100⟩ : RelRow) ∈ rows := by
  have hguard : (base == "" || comps.isEmpty) = false := by
    simp [hbase, hcomps]
  unfold build_relative_trend
  rw [hguard]
  simp only [Bool.false_eq_true, if_false, hG, hO, if_true]
  have hcols := relFiltered_cols pn df base comps gender occupation benefit bp wp
  exact relTail_mem _ base comps
    (by rw [hasCol_of_cols_eq df _ hcols]; exact hA)
    (by rw [hasCol_of_cols_eq df _ hcols]; exact hB)
    (fun c hc => by rw [hasCol_of_cols_eq df _ hcols]; exact hC c hc)

/-- C6 witness: a one-row table where the baseline has the value 2 at
age 30; the emitted baseline row at age 30 has ratio exactly 100. -/
theorem C6_baseline_ratio_100_witness :
    ∃ rows missing bm,
      build_relative_trend pn0 dfC6 ("A rates") [("B rates")] ("M") ("W") ("D")
        none none = Except.ok (rows, missing, bm) ∧
      ∀ a q, (a, q) ∈ rawPairs
          (relFiltered pn0 dfC6 ("A rates") [("B rates")] ("M") ("W") ("D")
            none none) ("A rates") →
        (⟨a, stripRates ("A rates"), 100⟩ : RelRow) ∈ rows :=
  C6_baseline_ratio_100 pn0 dfC6 ("A rates") [("B rates")] ("M") ("W") ("D")
    none none (by decide) (by decide) (by decide) (by decide) (by decide)
    (by decide) (by decide)

/-- C7 counterexample: the baseline column has zero matching rows (the
table has no rows at all), yet with an empty compare list the function
returns the baseline-missing flag `false` — the early return fires before
the baseline is examined. -/
theorem C7_baseline_missing_counterexample :
    rawPairs (relFiltered pn0 dfNoRows ("A rates") [] ("M") ("W") ("D")
      none none) ("A rates") = [] ∧
    build_relative_trend pn0 dfNoRows ("A rates") [] ("M") ("W") ("D")
      none none = Except.ok ([], [], false) := by
  refine ⟨by decide, by decide⟩

/-- C7 (amended): under a well-formed request (non-empty baseline name,
non-empty compare list, all referenced columns present), if the baseline
has zero matching non-missing numeric rows under the active filters, the
relative trend returns the baseline-missing flag true and an empty
series (with every compare company reported missing), regardless of
compare-company data. -/
theorem C7_baseline_missing (pn : String → Option ℚ) (df : DataFrame)
    (base : String) (comps : List String) (gender occupation benefit : String)
    (bp wp : Option String)
    (hbase : base ≠ "") (hcomps : comps ≠ [])
    (hG : df.hasCol ("Gender") = true) (hO : df.hasCol ("Occupation") = true)
    (hA : df.hasCol ("Age") = true) (hB : df.hasCol base = true)
    (hC : ∀ c ∈ comps, df.hasCol c = true)
    (hp : rawPairs (relFiltered pn df base comps gender occupation benefit bp wp)
      base = []) :
    build_relative_trend pn df base comps gender occupation benefit bp wp =
      Except.ok ([], comps, true) := by
  have hguard : (base == "" || comps.isEmpty) = false := by
    simp [hbase, hcomps]
  unfold build_relative_trend
  rw [hguard]
  simp only [Bool.false_eq_true, if_false, hG, hO, if_true]
  have hcols := relFiltered_cols pn df base comps gender occupation benefit bp wp
  exact relTail_empty _ base comps
    (by rw [hasCol_of_cols_eq df _ hcols]; exact hA)
    (by rw [hasCol_of_cols_eq df _ hcols]; exact hB)
    (fun c hc => by rw [hasCol_of_cols_eq df _ hcols]; exact hC c hc) hp

/-- C7 witness: the empty-rows table with one compare company yields the
baseline-missing flag and an empty series. -/
theorem C7_baseline_missing_witness :
    build_relative_trend pn0 dfNoRows ("A rates") [("B rates")] ("M") ("W") ("D")
      none none = Except.ok ([], [("B rates")], true) :=
  C7_baseline_missing pn0 dfNoRows ("A rates") [("B rates")] ("M") ("W") ("D")
    none none (by decide) (by decide) (by decide) (by decide) (by decide)
    (by decide) (by decide) (by decide)

/-- Store preservation below a bound: the store only grows, and every
slot below `B` keeps its value. -/
def PresBelow (B : Nat) (s s' : Store) : Prop :=
  s.length ≤ s'.length ∧ ∀ r, r < B → readS s' r = readS s r

/-- Preservation is reflexive. -/
theorem presBelow_refl (B : Nat) (s : Store) : PresBelow B s s :=
  ⟨Nat.le_refl _, fun _ _ => rfl⟩

/-- Preservation composes. -/
theorem presBelow_trans {B : Nat} {s s' s'' : Store}
    (h1 : PresBelow B s s') (h2 : PresBelow B s' s'') : PresBelow B s s'' :=
  ⟨Nat.le_trans h1.1 h2.1, fun r hr => (h2.2 r hr).trans (h1.2 r hr)⟩

/-- An allocation preserves every valid slot. -/
theorem presBelow_alloc {B : Nat} {s : Store} (d : DataFrame)
    (hB : B ≤ s.length) : PresBelow B s (allocS s d).1 := by
  refine ⟨by simp [allocS], ?_⟩
  intro r hr
  unfold readS allocS
  rw [List.getD_append _ _ _ _ (by omega)]

/-- Reading another slot after a write is unchanged. -/
theorem readS_write_ne {s : Store} {fR : Nat} (d : DataFrame) {r : Nat}
    (h : fR ≠ r) : readS (writeS s fR d) r = readS s r := by
  unfold readS writeS
  rw [List.getD_eq_getElem?_getD, List.getD_eq_getElem?_getD,
    List.getElem?_set_ne h]

/-- Reading back a written slot yields the written value. -/
theorem readS_write_same {s : Store} {fR : Nat} (d : DataFrame)
    (h : fR < s.length) : readS (writeS s fR d) fR = d := by
  unfold readS writeS
  rw [List.getD_eq_getElem?_getD, List.getElem?_set_eq_of_lt _ (by simpa using h)]
  rfl

/-- Reading the freshly allocated slot yields the allocated value. -/
theorem readS_alloc_new (s : Store) (d : DataFrame) :
    readS (allocS s d).1 (allocS s d).2 = d := by
  unfold readS allocS
  rw [List.getD_eq_getElem?_getD, List.getElem?_append_right (Nat.le_refl _)]
  simp

/-- A write keeps the store's length. -/
theorem writeS_length (s : Store) (fR : Nat) (d : DataFrame) :
    (writeS s fR d).length = s.length := by
  simp [writeS]

/-- An allocation's fresh index is valid in the new store. -/
theorem alloc_idx_lt (s : Store) (d : DataFrame) :
    (allocS s d).2 < (allocS s d).1.length := by
  simp [allocS]

/-- A write at or above the bound preserves every slot below it. -/
theorem presBelow_write {B : Nat} {s : Store} {fR : Nat} (d : DataFrame)
    (hfR : B ≤ fR) : PresBelow B s (writeS s fR d) := by
  refine ⟨by simp [writeS], ?_⟩
  intro r hr
  exact readS_write_ne d (by omega)

/-- One conditional filter assignment on the store: read value, index
bounds, and preservation. -/
theorem condStep_spec (P : Prop) [Decidable P] (c : String) (v : Val)
    (a : Store × Nat) (ha : a.2 < a.1.length) :
    readS (if P then allocS a.1 ((readS a.1 a.2).filterEq c v) else a).1
        (if P then allocS a.1 ((readS a.1 a.2).filterEq c v) else a).2 =
      (if P then (readS a.1 a.2).filterEq c v else readS a.1 a.2) ∧
    a.2 ≤ (if P then allocS a.1 ((readS a.1 a.2).filterEq c v) else a).2 ∧
    (if P then allocS a.1 ((readS a.1 a.2).filterEq c v) else a).2 <
      (if P then allocS a.1 ((readS a.1 a.2).filterEq c v) else a).1.length ∧
    a.1.length ≤ (if P then allocS a.1 ((readS a.1 a.2).filterEq c v) else a).1.length ∧
    ∀ r, r < a.1.length →
      readS (if P then allocS a.1 ((readS a.1 a.2).filterEq c v) else a).1 r =
        readS a.1 r := by
  by_cases hP : P
  · simp only [if_pos hP]
    refine ⟨readS_alloc_new _ _, ?_, alloc_idx_lt _ _, by simp [allocS], ?_⟩
    · show a.2 ≤ a.1.length
      omega
    · intro r hr
      exact (presBelow_alloc _ (Nat.le_refl a.1.length)).2 r hr
  · simp only [if_neg hP]
    exact ⟨trivial, Nat.le_refl _, ha, Nat.le_refl _, fun _ _ => trivial⟩

/-- The conditional filter chain on the store: reads back the pure
`condChain` value, keeps indices valid and monotone, and preserves every
pre-existing slot. -/
theorem condChain_st_spec (s : Store) (fR : Nat) (bc : Bool) (benefit : String)
    (bp wp : Option String) (hfR : fR < s.length) :
    readS (condChain_st s fR bc benefit bp wp).1 (condChain_st s fR bc benefit bp wp).2 =
      condChain (readS s fR) bc benefit bp wp ∧
    fR ≤ (condChain_st s fR bc benefit bp wp).2 ∧
    (condChain_st s fR bc benefit bp wp).2 < (condChain_st s fR bc benefit bp wp).1.length ∧
    s.length ≤ (condChain_st s fR bc benefit bp wp).1.length ∧
    ∀ r, r < s.length → readS (condChain_st s fR bc benefit bp wp).1 r = readS s r := by
  obtain ⟨e4, le4, lt4, len4, pres4⟩ :=
    condStep_spec (bc = true) ("BenefitType") (Val.str benefit) (s, fR) hfR
  dsimp only at e4 le4 lt4 len4 pres4
  set A4 := (if bc = true then
      allocS s ((readS s fR).filterEq ("BenefitType") (Val.str benefit))
    else ((s, fR) : Store × Nat)) with hA4
  obtain ⟨e5, le5, lt5, len5, pres5⟩ :=
    condStep_spec ((truthy bp && (readS A4.1 A4.2).hasCol ("BenefitPeriod")) = true)
      ("BenefitPeriod") (Val.str (bp.getD "")) A4 lt4
  set A5 := (if (truthy bp && (readS A4.1 A4.2).hasCol ("BenefitPeriod")) = true then
      allocS A4.1 ((readS A4.1 A4.2).filterEq ("BenefitPeriod") (Val.str (bp.getD "")))
    else A4) with hA5
  obtain ⟨e6, le6, lt6, len6, pres6⟩ :=
    condStep_spec ((truthy wp && (readS A5.1 A5.2).hasCol ("WaitingPeriod")) = true)
      ("WaitingPeriod") (Val.str (wp.getD "")) A5 lt5
  set A6 := (if (truthy wp && (readS A5.1 A5.2).hasCol ("WaitingPeriod")) = true then
      allocS A5.1 ((readS A5.1 A5.2).filterEq ("WaitingPeriod") (Val.str (wp.getD "")))
    else A5) with hA6
  have hst : condChain_st s fR bc benefit bp wp = A6 := by
    rw [hA6, hA5, hA4]
    rfl
  rw [hst]
  refine ⟨?_, by omega, lt6, by omega, ?_⟩
  · rw [e6, e5, e4]
    rfl
  · intro r hr
    have hr4 : r < A4.1.length := by omega
    have hr5 : r < A5.1.length := by omega
    rw [pres6 r hr5, pres5 r hr4, pres4 r hr]

/-- The coercion-only loop on the store: reads back the pure `coerceAll`
value, keeps the length, and preserves every other slot. -/
theorem coerceOnly_st_spec (pn : String → Option ℚ) :
    ∀ (cs : List String) (s : Store) (fR : Nat), fR < s.length →
      readS (coerceOnly_st pn fR cs s) fR = coerceAll pn cs (readS s fR) ∧
      (coerceOnly_st pn fR cs s).length = s.length ∧
      ∀ r, r ≠ fR → readS (coerceOnly_st pn fR cs s) r = readS s r := by
  intro cs
  induction cs with
  | nil => exact fun s fR _ => ⟨rfl, rfl, fun _ _ => rfl⟩
  | cons c rest ih =>
    intro s fR hfR
    have hstep : coerceOnly_st pn fR (c :: rest) s =
        coerceOnly_st pn fR rest (writeS s fR ((readS s fR).coerceCol pn c)) := rfl
    have hlen1 : fR < (writeS s fR ((readS s fR).coerceCol pn c)).length := by
      rw [writeS_length]
      exact hfR
    obtain ⟨ihv, ihl, ihp⟩ := ih (writeS s fR ((readS s fR).coerceCol pn c)) fR hlen1
    refine ⟨?_, ?_, ?_⟩
    · rw [hstep, ihv, readS_write_same _ hfR]
      rfl
    · rw [hstep, ihl, writeS_length]
    · intro r hr
      rw [hstep, ihp r hr, readS_write_ne _ (by omega)]

/-- The coercion loop of `build_trend` on the store: reads back the pure
`coerceFold` frame and missing list, keeps the length, and preserves
every other slot. -/
theorem coerceLoop_st_spec (pn : String → Option ℚ) :
    ∀ (cs : List String) (s : Store) (fR : Nat) (m : List String), fR < s.length →
      readS (coerceLoop_st pn fR cs (s, m)).1 fR = (coerceFold pn cs (readS s fR, m)).1 ∧
      (coerceLoop_st pn fR cs (s, m)).2 = (coerceFold pn cs (readS s fR, m)).2 ∧
      (coerceLoop_st pn fR cs (s, m)).1.length = s.length ∧
      ∀ r, r ≠ fR → readS (coerceLoop_st pn fR cs (s, m)).1 r = readS s r := by
  intro cs
  induction cs with
  | nil => exact fun s fR m _ => ⟨rfl, rfl, rfl, fun _ _ => rfl⟩
  | cons c rest ih =>
    intro s fR m hfR
    have hread : readS (writeS s fR ((readS s fR).coerceCol pn c)) fR =
        (readS s fR).coerceCol pn c := readS_write_same _ hfR
    have hstep : coerceLoop_st pn fR (c :: rest) (s, m) =
        coerceLoop_st pn fR rest
          (writeS s fR ((readS s fR).coerceCol pn c),
           if ((((readS s fR).coerceCol pn c).colVals c).filterMap id).isEmpty then
             c :: m else m) := by
      show coerceLoop_st pn fR rest
        (writeS s fR ((readS s fR).coerceCol pn c),
         if (((readS (writeS s fR ((readS s fR).coerceCol pn c)) fR).colVals c).filterMap id).isEmpty then
           c :: m else m) = _
      rw [hread]
    have hpure : coerceFold pn (c :: rest) (readS s fR, m) =
        coerceFold pn rest ((readS s fR).coerceCol pn c,
          if ((((readS s fR).coerceCol pn c).colVals c).filterMap id).isEmpty then
            c :: m else m) := rfl
    have hlen1 : fR < (writeS s fR ((readS s fR).coerceCol pn c)).length := by
      rw [writeS_length]
      exact hfR
    obtain ⟨ihv, ihm, ihl, ihp⟩ := ih (writeS s fR ((readS s fR).coerceCol pn c))
      fR (if ((((readS s fR).coerceCol pn c).colVals c).filterMap id).isEmpty then
        c :: m else m) hlen1
    refine ⟨?_, ?_, ?_, ?_⟩
    · rw [hstep, ihv, hread, hpure]
    · rw [hstep, ihm, hread, hpure]
    · rw [hstep, ihl, writeS_length]
    · intro r hr
      rw [hstep, ihp r hr, readS_write_ne _ (by omega)]

/-- Extending a preserved store by an allocation keeps it preserved. -/
theorem presBelow_alloc_step {B : Nat} {s0 s : Store} (d : DataFrame)
    (hp : PresBelow B s0 s) (hB : B ≤ s0.length) :
    PresBelow B s0 (allocS s d).1 :=
  presBelow_trans hp (presBelow_alloc d (Nat.le_trans hB hp.1))

/-- The store-passing point lookup computes the pure `build_lookup` of
the dereferenced frame and preserves every pre-existing slot. -/
theorem build_lookup_st_spec (s0 : Store) (dfR : Nat) (age : ℚ)
    (g o b : String) :
    (build_lookup_st s0 dfR age g o b).2 = build_lookup (readS s0 dfR) age g o b ∧
    PresBelow s0.length s0 (build_lookup_st s0 dfR age g o b).1 := by
  simp only [build_lookup_st, build_lookup]
  by_cases hA : (readS s0 dfR).hasCol ("Age") = true
  · simp only [hA, if_true]
    by_cases hG : (readS s0 dfR).hasCol ("Gender") = true
    · simp only [hG, if_true]
      by_cases hO : (readS s0 dfR).hasCol ("Occupation") = true
      · simp only [hO, if_true]
        by_cases hBT : (readS s0 dfR).hasCol ("BenefitType") = true
        · simp only [hBT, if_true]
          constructor
          · simp only [readS_alloc_new]
          · exact presBelow_alloc_step _ (presBelow_alloc_step _ (presBelow_alloc_step _
              (presBelow_alloc_step _ (presBelow_alloc_step _ (presBelow_refl _ _)
                (Nat.le_refl _)) (Nat.le_refl _)) (Nat.le_refl _)) (Nat.le_refl _))
              (Nat.le_refl _)
        · rw [Bool.not_eq_true] at hBT
          simp only [hBT, Bool.false_eq_true, if_false]
          constructor
          · simp only [readS_alloc_new]
          · exact presBelow_alloc_step _ (presBelow_alloc_step _ (presBelow_alloc_step _
              (presBelow_alloc_step _ (presBelow_refl _ _) (Nat.le_refl _))
              (Nat.le_refl _)) (Nat.le_refl _)) (Nat.le_refl _)
      · rw [Bool.not_eq_true] at hO
        simp only [hO, Bool.false_eq_true, if_false]
        exact ⟨trivial, presBelow_alloc_step _ (presBelow_alloc_step _ (presBelow_alloc_step _
          (presBelow_refl _ _) (Nat.le_refl _)) (Nat.le_refl _)) (Nat.le_refl _)⟩
    · rw [Bool.not_eq_true] at hG
      simp only [hG, Bool.false_eq_true, if_false]
      exact ⟨trivial, presBelow_alloc_step _ (presBelow_alloc_step _
        (presBelow_refl _ _) (Nat.le_refl _)) (Nat.le_refl _)⟩
  · rw [Bool.not_eq_true] at hA
    simp only [hA, Bool.false_eq_true, if_false]
    exact ⟨trivial, presBelow_alloc_step _ (presBelow_refl _ _) (Nat.le_refl _)⟩

/-- The store-passing trend computes the pure `build_trend` of the
dereferenced frame and preserves every pre-existing slot. -/
theorem build_trend_st_spec (pn : String → Option ℚ) (s0 : Store) (dfR : Nat)
    (companies : List String) (gender occupation benefit : String)
    (bp wp : Option String) :
    (build_trend_st pn s0 dfR companies gender occupation benefit bp wp).2 =
      build_trend pn (readS s0 dfR) companies gender occupation benefit bp wp ∧
    PresBelow s0.length s0
      (build_trend_st pn s0 dfR companies gender occupation benefit bp wp).1 := by
  simp only [build_trend_st, build_trend]
  set D := readS s0 dfR with hD
  by_cases hG : D.hasCol ("Gender") = true
  · simp only [hG, if_true]
    by_cases hO : D.hasCol ("Occupation") = true
    · simp only [hO, if_true]
      set A1 := allocS s0 D with h1
      set A2 := allocS A1.1 ((readS A1.1 A1.2).filterEq ("Gender") (Val.str gender)) with h2
      set A3 := allocS A2.1 ((readS A2.1 A2.2).filterEq ("Occupation") (Val.str occupation)) with h3
      have r1 : readS A1.1 A1.2 = D := by
        rw [h1]
        exact readS_alloc_new _ _
      have r2 : readS A2.1 A2.2 = D.filterEq ("Gender") (Val.str gender) := by
        rw [h2, readS_alloc_new, r1]
      have r3 : readS A3.1 A3.2 =
          (D.filterEq ("Gender") (Val.str gender)).filterEq ("Occupation")
            (Val.str occupation) := by
        rw [h3, readS_alloc_new, r2]
      have l3 : A3.2 < A3.1.length := by
        rw [h3]
        exact alloc_idx_lt _ _
      have p1 : PresBelow s0.length s0 A1.1 := by
        rw [h1]
        exact presBelow_alloc _ (Nat.le_refl _)
      have p2 : PresBelow s0.length s0 A2.1 := by
        rw [h2]
        exact presBelow_alloc_step _ p1 (Nat.le_refl _)
      have p3 : PresBelow s0.length s0 A3.1 := by
        rw [h3]
        exact presBelow_alloc_step _ p2 (Nat.le_refl _)
      have hi3 : A3.2 = A2.1.length := by
        rw [h3]
        rfl
      obtain ⟨cv, cle, clt, clen, cpres⟩ :=
        condChain_st_spec A3.1 A3.2 (D.hasCol ("BenefitType")) benefit bp wp l3
      set A := condChain_st A3.1 A3.2 (D.hasCol ("BenefitType")) benefit bp wp with hA4
      have cvd : readS A.1 A.2 = demoFiltered D gender occupation benefit bp wp := by
        rw [cv, r3]
        rfl
      have pA : PresBelow s0.length s0 A.1 :=
        presBelow_trans p3 ⟨clen, fun r hr => cpres r (Nat.lt_of_lt_of_le hr p3.1)⟩
      have hsA : s0.length ≤ A.2 := by
        have := p2.1
        omega
      set M := (get_company_columns D).filter
        (fun c => companies.isEmpty || companies.contains c) with hM
      by_cases hm : M.isEmpty = true
      · simp only [hm, if_true]
        exact ⟨trivial, pA⟩
      · simp only [hm, Bool.false_eq_true, if_false]
        obtain ⟨fv, fmm, flen, fpres⟩ := coerceLoop_st_spec pn M A.1 A.2 [] clt
        set FM := coerceLoop_st pn A.2 M (A.1, []) with hFM
        have pFM : PresBelow s0.length s0 FM.1 :=
          presBelow_trans pA ⟨Nat.le_of_eq flen.symm,
            fun r hr => fpres r (by omega)⟩
        by_cases hAge : D.hasCol ("Age") = true
        · simp only [hAge, if_true]
          refine ⟨?_, pFM⟩
          rw [fv, fmm, cvd]
        · rw [Bool.not_eq_true] at hAge
          simp only [hAge, Bool.false_eq_true, if_false]
          exact ⟨trivial, pFM⟩
    · rw [Bool.not_eq_true] at hO
      simp only [hO, Bool.false_eq_true, if_false]
      refine ⟨trivial, ?_⟩
      exact presBelow_alloc_step _ (presBelow_alloc_step _ (presBelow_refl _ _)
        (Nat.le_refl _)) (Nat.le_refl _)
  · rw [Bool.not_eq_true] at hG
    simp only [hG, Bool.false_eq_true, if_false]
    exact ⟨trivial, presBelow_alloc_step _ (presBelow_refl _ _) (Nat.le_refl _)⟩

/-- The store-passing relative trend computes the pure
`build_relative_trend` of the dereferenced frame and preserves every
pre-existing slot. -/
theorem build_relative_trend_st_spec (pn : String → Option ℚ) (s0 : Store)
    (dfR : Nat) (base : String) (comps : List String)
    (gender occupation benefit : String) (bp wp : Option String) :
    (build_relative_trend_st pn s0 dfR base comps gender occupation benefit bp wp).2 =
      build_relative_trend pn (readS s0 dfR) base comps gender occupation benefit bp wp ∧
    PresBelow s0.length s0
      (build_relative_trend_st pn s0 dfR base comps gender occupation benefit bp wp).1 := by
  simp only [build_relative_trend_st, build_relative_trend]
  set D := readS s0 dfR with hD
  by_cases hg : (base == "" || comps.isEmpty) = true
  · simp only [hg, if_true]
    exact ⟨trivial, presBelow_refl _ _⟩
  · simp only [hg, Bool.false_eq_true, if_false]
    by_cases hG : D.hasCol ("Gender") = true
    · simp only [hG, if_true]
      by_cases hO : D.hasCol ("Occupation") = true
      · simp only [hO, if_true]
        set A1 := allocS s0 D with h1
        set A2 := allocS A1.1 ((readS A1.1 A1.2).filterEq ("Gender") (Val.str gender)) with h2
        set A3 := allocS A2.1 ((readS A2.1 A2.2).filterEq ("Occupation") (Val.str occupation)) with h3
        have r1 : readS A1.1 A1.2 = D := by
          rw [h1]
          exact readS_alloc_new _ _
        have r2 : readS A2.1 A2.2 = D.filterEq ("Gender") (Val.str gender) := by
          rw [h2, readS_alloc_new, r1]
        have r3 : readS A3.1 A3.2 =
            (D.filterEq ("Gender") (Val.str gender)).filterEq ("Occupation")
              (Val.str occupation) := by
          rw [h3, readS_alloc_new, r2]
        have l3 : A3.2 < A3.1.length := by
          rw [h3]
          exact alloc_idx_lt _ _
        have p1 : PresBelow s0.length s0 A1.1 := by
          rw [h1]
          exact presBelow_alloc _ (Nat.le_refl _)
        have p2 : PresBelow s0.length s0 A2.1 := by
          rw [h2]
          exact presBelow_alloc_step _ p1 (Nat.le_refl _)
        have p3 : PresBelow s0.length s0 A3.1 := by
          rw [h3]
          exact presBelow_alloc_step _ p2 (Nat.le_refl _)
        have hi3 : A3.2 = A2.1.length := by
          rw [h3]
          rfl
        obtain ⟨cv, cle, clt, clen, cpres⟩ :=
          condChain_st_spec A3.1 A3.2 (D.hasCol ("BenefitType")) benefit bp wp l3
        set A := condChain_st A3.1 A3.2 (D.hasCol ("BenefitType")) benefit bp wp with hA4
        have cvd : readS A.1 A.2 = demoFiltered D gender occupation benefit bp wp := by
          rw [cv, r3]
          rfl
        have pA : PresBelow s0.length s0 A.1 :=
          presBelow_trans p3 ⟨clen, fun r hr => cpres r (Nat.lt_of_lt_of_le hr p3.1)⟩
        have hsA : s0.length ≤ A.2 := by
          have := p2.1
          omega
        obtain ⟨ov, olen, opres⟩ := coerceOnly_st_spec pn
          ((base :: comps).filter (fun c => (readS A.1 A.2).hasCol c)) A.1 A.2 clt
        constructor
        · show relTail (readS (coerceOnly_st pn A.2
            ((base :: comps).filter (fun c => (readS A.1 A.2).hasCol c)) A.1) A.2)
              base comps = _
          rw [ov, cvd]
          rfl
        · refine presBelow_trans pA ⟨Nat.le_of_eq olen.symm, fun r hr => opres r (by omega)⟩
      · rw [Bool.not_eq_true] at hO
        simp only [hO, Bool.false_eq_true, if_false]
        exact ⟨trivial, presBelow_alloc_step _ (presBelow_alloc_step _
          (presBelow_refl _ _) (Nat.le_refl _)) (Nat.le_refl _)⟩
    · rw [Bool.not_eq_true] at hG
      simp only [hG, Bool.false_eq_true, if_false]
      exact ⟨trivial, presBelow_alloc_step _ (presBelow_refl _ _) (Nat.le_refl _)⟩

/-- C9: the three query operations (point lookup, trend, relative trend)
are pure with respect to the loaded table.  In the store semantics —
where `df.copy()` allocates a fresh object and every filtering assignment
rebinds the local name to a freshly allocated frame — each operation
leaves the input dataframe's slot unchanged, its output is exactly the
pure function of the dereferenced input frame, and re-running the
identical query against the post-run store yields the identical output. -/
theorem C9_queries_pure (pn : String → Option ℚ) (s0 : Store) (dfR : Nat)
    (hR : dfR < s0.length) (age : ℚ) (companies : List String)
    (base : String) (comps : List String)
    (gender occupation benefit : String) (bp wp : Option String) :
    (readS (build_lookup_st s0 dfR age gender occupation benefit).1 dfR =
        readS s0 dfR ∧
      (build_lookup_st s0 dfR age gender occupation benefit).2 =
        build_lookup (readS s0 dfR) age gender occupation benefit ∧
      (build_lookup_st (build_lookup_st s0 dfR age gender occupation benefit).1
          dfR age gender occupation benefit).2 =
        (build_lookup_st s0 dfR age gender occupation benefit).2) ∧
    (readS (build_trend_st pn s0 dfR companies gender occupation benefit bp wp).1
        dfR = readS s0 dfR ∧
      (build_trend_st pn s0 dfR companies gender occupation benefit bp wp).2 =
        build_trend pn (readS s0 dfR) companies gender occupation benefit bp wp ∧
      (build_trend_st pn
          (build_trend_st pn s0 dfR companies gender occupation benefit bp wp).1
          dfR companies gender occupation benefit bp wp).2 =
        (build_trend_st pn s0 dfR companies gender occupation benefit bp wp).2) ∧
    (readS (build_relative_trend_st pn s0 dfR base comps gender occupation
        benefit bp wp).1 dfR = readS s0 dfR ∧
      (build_relative_trend_st pn s0 dfR base comps gender occupation benefit
          bp wp).2 =
        build_relative_trend pn (readS s0 dfR) base comps gender occupation
          benefit bp wp ∧
      (build_relative_trend_st pn
          (build_relative_trend_st pn s0 dfR base comps gender occupation
            benefit bp wp).1 dfR base comps gender occupation benefit bp wp).2 =
        (build_relative_trend_st pn s0 dfR base comps gender occupation benefit
          bp wp).2) := by
  refine ⟨?_, ?_, ?_⟩
  · obtain ⟨e1, p1⟩ := build_lookup_st_spec s0 dfR age gender occupation benefit
    have r1 : readS (build_lookup_st s0 dfR age gender occupation benefit).1 dfR =
        readS s0 dfR := p1.2 dfR hR
    obtain ⟨e2, _⟩ := build_lookup_st_spec
      (build_lookup_st s0 dfR age gender occupation benefit).1 dfR age gender
      occupation benefit
    exact ⟨r1, e1, by rw [e2, r1, e1]⟩
  · obtain ⟨e1, p1⟩ :=
      build_trend_st_spec pn s0 dfR companies gender occupation benefit bp wp
    have r1 : readS
        (build_trend_st pn s0 dfR companies gender occupation benefit bp wp).1
          dfR = readS s0 dfR := p1.2 dfR hR
    obtain ⟨e2, _⟩ := build_trend_st_spec pn
      (build_trend_st pn s0 dfR companies gender occupation benefit bp wp).1
      dfR companies gender occupation benefit bp wp
    exact ⟨r1, e1, by rw [e2, r1, e1]⟩
  · obtain ⟨e1, p1⟩ := build_relative_trend_st_spec pn s0 dfR base comps gender
      occupation benefit bp wp
    have r1 : readS (build_relative_trend_st pn s0 dfR base comps gender
        occupation benefit bp wp).1 dfR = readS s0 dfR := p1.2 dfR hR
    obtain ⟨e2, _⟩ := build_relative_trend_st_spec pn
      (build_relative_trend_st pn s0 dfR base comps gender occupation benefit
        bp wp).1 dfR base comps gender occupation benefit bp wp
    exact ⟨r1, e1, by rw [e2, r1, e1]⟩

/-- C9 witness: a one-frame store holding the concrete one-row table;
each of the three operations leaves slot 0 untouched, computes the pure
result, and repeats identically. -/
theorem C9_queries_pure_witness :
    0 < ([dfC6] : Store).length ∧
    ((readS (build_lookup_st [dfC6] 0 30 ("M") ("W") ("D")).1 0 =
        readS [dfC6] 0 ∧
      (build_lookup_st [dfC6] 0 30 ("M") ("W") ("D")).2 =
        build_lookup (readS [dfC6] 0) 30 ("M") ("W") ("D") ∧
      (build_lookup_st (build_lookup_st [dfC6] 0 30 ("M") ("W") ("D")).1
          0 30 ("M") ("W") ("D")).2 =
        (build_lookup_st [dfC6] 0 30 ("M") ("W") ("D")).2) ∧
    (readS (build_trend_st pn0 [dfC6] 0 [("A rates")] ("M") ("W") ("D")
        none none).1 0 = readS [dfC6] 0 ∧
      (build_trend_st pn0 [dfC6] 0 [("A rates")] ("M") ("W") ("D")
          none none).2 =
        build_trend pn0 (readS [dfC6] 0) [("A rates")] ("M") ("W") ("D")
          none none ∧
      (build_trend_st pn0
          (build_trend_st pn0 [dfC6] 0 [("A rates")] ("M") ("W") ("D")
            none none).1 0 [("A rates")] ("M") ("W") ("D") none none).2 =
        (build_trend_st pn0 [dfC6] 0 [("A rates")] ("M") ("W") ("D")
          none none).2) ∧
    (readS (build_relative_trend_st pn0 [dfC6] 0 ("A rates") [("B rates")]
        ("M") ("W") ("D") none none).1 0 = readS [dfC6] 0 ∧
      (build_relative_trend_st pn0 [dfC6] 0 ("A rates") [("B rates")]
          ("M") ("W") ("D") none none).2 =
        build_relative_trend pn0 (readS [dfC6] 0) ("A rates") [("B rates")]
          ("M") ("W") ("D") none none ∧
      (build_relative_trend_st pn0
          (build_relative_trend_st pn0 [dfC6] 0 ("A rates") [("B rates")]
            ("M") ("W") ("D") none none).1 0 ("A rates") [("B rates")]
          ("M") ("W") ("D") none none).2 =
        (build_relative_trend_st pn0 [dfC6] 0 ("A rates") [("B rates")]
          ("M") ("W") ("D") none none).2)) :=
  ⟨by decide, C9_queries_pure pn0 [dfC6] 0 (by decide) 30 [("A rates")]
    ("A rates") [("B rates")] ("M") ("W") ("D") none none⟩
